import Mathlib

/-!
# Daily_Report: the browser controller `static/main.js`

A shallow embedding of the controller that drives the report page: the
tri-state "select all" control (`updateSelectedCount`), the validation and
request/response handling of `handleGenerateReport`, and the debounced
directory search (`fetchDevices` behind the two `input` listeners).

JavaScript strings are Lean `String`s; DOM writes and network operations
are recorded as an explicit list of effects in program order.
-/

namespace DailyReport

/-! ## Selection state: `updateSelectedCount` (main.js 52-67) -/

/-- One rendered `.device-checkbox` of the device list. -/
structure Checkbox where
  value : String
  checked : Bool
  deriving DecidableEq, Repr

/-- The two properties of the select-all checkbox the controller writes. -/
structure SelectAll where
  checked : Bool
  indeterminate : Bool
  deriving DecidableEq, Repr

/-- What `updateSelectedCount` leaves on the page: the text of the
`selected-device-count` span and the select-all checkbox. -/
structure SelectionView where
  countLabel : String
  selectAll : SelectAll
  deriving DecidableEq, Repr

/-- The template literal of main.js line 54. -/
def countLabel (n : Nat) : String :=
  "(已选 " ++ toString n ++ " 台)"

/-- The boxes of `deviceList.querySelectorAll('.device-checkbox:checked')`. -/
def checkedCheckboxes (deviceList : List Checkbox) : List Checkbox :=
  deviceList.filter (fun cb => cb.checked)

/-- Function `updateSelectedCount` (main.js 52-67): every branch writes both
properties of the select-all checkbox, so the result does not depend on
their previous values. -/
def updateSelectedCount (deviceList : List Checkbox) : SelectionView :=
  let checkedLen := (checkedCheckboxes deviceList).length
  let allLen := deviceList.length
  if allLen > 0 ∧ checkedLen = allLen then
    { countLabel := countLabel checkedLen, selectAll := { checked := true, indeterminate := false } }
  else if checkedLen > 0 then
    { countLabel := countLabel checkedLen, selectAll := { checked := false, indeterminate := true } }
  else
    { countLabel := countLabel checkedLen, selectAll := { checked := false, indeterminate := false } }

/-- A device list with `selected` checked boxes followed by unchecked ones,
`total` boxes in all (for `selected ≤ total`). -/
def sampleDeviceList (selected total : Nat) : List Checkbox :=
  List.replicate selected { value := "", checked := true } ++
    List.replicate (total - selected) { value := "", checked := false }

/-! ## Dates: `new Date(value)`, `getFullYear()`, `getMonth()`

The form's date fields hold `""` or a date-only string `YYYY-MM-DD` that
names a calendar date. `new Date("YYYY-MM-DD")` is the UTC midnight of that
day (ECMA-262, Date Time String Format: a date-only form is read as UTC),
while `getFullYear` and `getMonth` read the date in the local time zone of
the browser. What `Date` makes of any other string differs between
engines; such strings are modelled as an Invalid Date. -/

/-- The part of the browser environment the controller depends on. -/
structure Env where
  /-- Offset of local time from UTC, in milliseconds, at a UTC time value
  (`LocalTZA(t, true)`): `8 * 3600000` in China, `-5 * 3600000` in New York
  in winter. -/
  localTZA : Int → Int
  /-- Message of the `URIError` thrown by `decodeURIComponent`
  (`"URI malformed"` in V8). -/
  uriErrorMessage : String
  /-- Message of the `TypeError` thrown when a property of `null` is read. -/
  nullReadMessage : String

def msPerDay : Int := 86400000

/-- ECMA-262 `DaysInYear` as a leap-year test. -/
def inLeapYear (y : Int) : Bool :=
  (y % 4 == 0 && y % 100 != 0) || y % 400 == 0

/-- ECMA-262 `DayFromYear(y)`: the day number of 1 January of year `y`. -/
def dayFromYear (y : Int) : Int :=
  365 * (y - 1970) + (y - 1969) / 4 - (y - 1901) / 100 + (y - 1601) / 400

/-- ECMA-262 `YearFromTime` on day numbers: the largest `y` with
`dayFromYear y ≤ day` (see `yearFromDay_eq`), computed from an estimate
that is off by at most one. -/
def yearFromDay (day : Int) : Int :=
  let e := 1970 + (400 * day) / 146097
  if day < dayFromYear e then e - 1
  else if dayFromYear (e + 1) ≤ day then e + 1
  else e

/-- Days of a common year before each month, from the table of ECMA-262
`MonthFromTime` (the last entry is the length of the year). -/
def cumulativeDays : List Int :=
  [0, 31, 59, 90, 120, 151, 181, 212, 243, 273, 304, 334, 365]

/-- Days of the year before month `m` (0 = January): one more from March
on in a leap year. -/
def daysBeforeMonth (leap : Bool) (m : Nat) : Int :=
  cumulativeDays.getD m 365 + (if leap && decide (2 ≤ m) then 1 else 0)

/-- ECMA-262 `MonthFromTime`, from the day within the year: 0 = January. -/
def monthFromDayWithinYear (leap : Bool) (d : Int) : Nat :=
  if d < daysBeforeMonth leap 1 then 0
  else if d < daysBeforeMonth leap 2 then 1
  else if d < daysBeforeMonth leap 3 then 2
  else if d < daysBeforeMonth leap 4 then 3
  else if d < daysBeforeMonth leap 5 then 4
  else if d < daysBeforeMonth leap 6 then 5
  else if d < daysBeforeMonth leap 7 then 6
  else if d < daysBeforeMonth leap 8 then 7
  else if d < daysBeforeMonth leap 9 then 8
  else if d < daysBeforeMonth leap 10 then 9
  else if d < daysBeforeMonth leap 11 then 10
  else 11

/-- Number of days of month `m` (1 = January) of year `y`. -/
def daysInMonth (y m : Nat) : Nat :=
  if m = 2 then (if inLeapYear y then 29 else 28)
  else if m = 4 ∨ m = 6 ∨ m = 9 ∨ m = 11 then 30
  else 31

/-- A calendar date as written in a date-only string: month 1-12. -/
structure CivilDate where
  year : Nat
  month : Nat
  day : Nat
  deriving DecidableEq, Repr

def digitVal (c : Char) : Option Nat :=
  if '0' ≤ c ∧ c ≤ '9' then some (c.toNat - 48) else none

/-- The date written in a string of the form `YYYY-MM-DD` (four-digit year,
a real calendar date), `none` for any other string. This is the domain on
which engines agree; outside it they differ (V8 reads `2024-02-30` as
1 March and accepts a five-digit year), and statements that quantify over
form states carry the domain as a hypothesis (`isDateFieldValue`). -/
def parseDateOnly (s : String) : Option CivilDate :=
  match s.data with
  | [y1, y2, y3, y4, '-', m1, m2, '-', d1, d2] =>
    match digitVal y1, digitVal y2, digitVal y3, digitVal y4,
          digitVal m1, digitVal m2, digitVal d1, digitVal d2 with
    | some a, some b, some c, some d, some e, some f, some g, some h =>
      let y := 1000 * a + 100 * b + 10 * c + d
      let m := 10 * e + f
      let dd := 10 * g + h
      if 1 ≤ m ∧ m ≤ 12 ∧ 1 ≤ dd ∧ dd ≤ daysInMonth y m then
        some { year := y, month := m, day := dd }
      else none
    | _, _, _, _, _, _, _, _ => none
  | _ => none

/-- ECMA-262 `MakeDay`: the day number of a calendar date. -/
def makeDay (d : CivilDate) : Int :=
  dayFromYear d.year + daysBeforeMonth (inLeapYear d.year) (d.month - 1) + (d.day - 1 : Nat)

/-- Time value of `new Date(s)` in milliseconds since the epoch for a
string of the domain of `parseDateOnly`; `none` is the Invalid Date (time
value `NaN`), which is also what the model gives outside that domain. -/
def dateValue (s : String) : Option Int :=
  (parseDateOnly s).map (fun d => makeDay d * msPerDay)

/-- ECMA-262 `Day(LocalTime(t))`. -/
def localDay (env : Env) (t : Int) : Int :=
  (t + env.localTZA t) / msPerDay

/-- The `getFullYear()` of a valid date with time value `t`. -/
def getFullYear (env : Env) (t : Int) : Int :=
  yearFromDay (localDay env t)

/-- The `getMonth()` of a valid date with time value `t` (0 = January). -/
def getMonth (env : Env) (t : Int) : Int :=
  let day := localDay env t
  let y := yearFromDay day
  (monthFromDayWithinYear (inLeapYear y) (day - dayFromYear y) : Nat)

/-! ## Form state and validation (main.js 130-164) -/

/-- The values `handleGenerateReport` reads from the page. -/
structure Form where
  reportType : String
  startDate : String
  endDate : String
  deviceList : List Checkbox

/-- The test `start > end` on two `Date` objects: a comparison of time values,
false when either is the Invalid Date (main.js 146). -/
def startAfterEnd (startDate endDate : String) : Bool :=
  match dateValue startDate, dateValue endDate with
  | some s, some e => decide (s > e)
  | _, _ => false

/-- The `monthDiff` of main.js 153; `none` stands for `NaN`. -/
def monthDiff (env : Env) (startDate endDate : String) : Option Int :=
  match dateValue startDate, dateValue endDate with
  | some s, some e =>
    some ((getFullYear env e - getFullYear env s) * 12 + (getMonth env e - getMonth env s))
  | _, _ => none

/-- The test `monthDiff >= 2`, false for `NaN` (main.js 154). -/
def monthDiffAtLeastTwo (env : Env) (startDate endDate : String) : Bool :=
  match monthDiff env startDate endDate with
  | some n => decide (n ≥ 2)
  | none => false

def msgReportType : String := "请选择报表类型。"
def msgDates : String := "请选择开始和结束日期。"
def msgDateOrder : String := "开始日期不能晚于结束日期。"
def msgSpan : String := "每日消耗误差报表查询日期跨度不能超过两个月。"
def msgDevices : String := "请至少选择一个设备。"

/-- The validation block of `handleGenerateReport` (main.js 135-164): the
message passed to `setStatus(…, true)` before the early `return`, or
`none` when every check passes. -/
def validate (env : Env) (form : Form) : Option String :=
  if form.reportType = "" then some msgReportType
  else if form.startDate = "" ∨ form.endDate = "" then some msgDates
  else if startAfterEnd form.startDate form.endDate then some msgDateOrder
  else if form.reportType = "daily_consumption" ∧
      monthDiffAtLeastTwo env form.startDate form.endDate then some msgSpan
  else if (checkedCheckboxes form.deviceList).length = 0 then some msgDevices
  else none

/-! ## Pattern matching on the disposition header (main.js 194-204)

The two regular expressions are built from literal characters and
character sets with `?`, `*` and a captured `+`; both carry the `i` flag.
The matcher below is a backtracking matcher for exactly these forms. -/

/-- The class `\s` of ECMAScript regular expressions: WhiteSpace and LineTerminator. -/
def isJsSpace (c : Char) : Bool :=
  let n := c.toNat
  n = 0x09 || n = 0x0A || n = 0x0B || n = 0x0C || n = 0x0D || n = 0x20 || n = 0xA0 ||
  n = 0x1680 || (0x2000 ≤ n && n ≤ 0x200A) || n = 0x2028 || n = 0x2029 || n = 0x202F ||
  n = 0x205F || n = 0x3000 || n = 0xFEFF

/-- A subject character `x` matches the ASCII pattern character `c` under
the `i` flag: it is `c` in either case (ECMA-262 `Canonicalize` does not
map a character outside ASCII to one inside). -/
def ciEq (x c : Char) : Bool :=
  x == c.toLower || x == c.toUpper

/-- One item of a pattern. -/
inductive Atom where
  /-- A literal character. -/
  | lit (c : Char)
  /-- An optional character of a set, `[set]?`. -/
  | opt (set : Char → Bool)
  /-- Any number of characters of a set, `[set]*`. -/
  | star (set : Char → Bool)
  /-- The capture group, `([set]+)`. -/
  | capturePlus (set : Char → Bool)

/-- Greedy `[set]*` followed by the rest of the pattern `k`: the longest
run first, shorter ones on backtracking. -/
def starThen (set : Char → Bool) (k : List Char → Option (List Char)) :
    List Char → Option (List Char)
  | [] => k []
  | x :: xs =>
    if set x then (starThen set k xs).orElse (fun _ => k (x :: xs)) else k (x :: xs)

/-- Greedy `([set]*)` after the captured characters `acc` (last first),
followed by the rest of the pattern `k`, which receives the capture. -/
def captureThen (set : Char → Bool) (k : List Char → List Char → Option (List Char))
    (acc : List Char) : List Char → Option (List Char)
  | [] => k acc.reverse []
  | x :: xs =>
    if set x then (captureThen set k (x :: acc) xs).orElse (fun _ => k acc.reverse (x :: xs))
    else k acc.reverse (x :: xs)

/-- Match of a pattern at the start of the subject: the text of the capture
group of the first successful alternative in backtracking order. -/
def matchHere : List Atom → List Char → List Char → Option (List Char)
  | [], cap, _ => some cap
  | Atom.lit c :: rest, cap, s =>
    match s with
    | x :: xs => if ciEq x c then matchHere rest cap xs else none
    | [] => none
  | Atom.opt set :: rest, cap, s =>
    match s with
    | x :: xs =>
      if set x then (matchHere rest cap xs).orElse (fun _ => matchHere rest cap (x :: xs))
      else matchHere rest cap (x :: xs)
    | [] => matchHere rest cap []
  | Atom.star set :: rest, cap, s => starThen set (fun s1 => matchHere rest cap s1) s
  | Atom.capturePlus set :: rest, _, s =>
    match s with
    | x :: xs => if set x then captureThen set (fun c s1 => matchHere rest c s1) [x] xs else none
    | [] => none

/-- The call `subject.match(pattern)` without the `g` flag: the capture group of the
leftmost match, `none` for `null`. -/
def regexMatch (pattern : List Atom) : List Char → Option (List Char)
  | [] => matchHere pattern [] []
  | x :: xs => (matchHere pattern [] (x :: xs)).orElse (fun _ => regexMatch pattern xs)

def literal (s : String) : List Atom :=
  s.data.map Atom.lit

def isQuote (c : Char) : Bool := c = '\'' || c = '"'

/-- The set `['\'\'\s]`: an apostrophe or white space. -/
def isAposOrSpace (c : Char) : Bool := c = '\'' || isJsSpace c

/-- The set `[^;\s"]`. -/
def isValueChar (c : Char) : Bool := !(c = ';' || isJsSpace c || c = '"')

/-- The pattern `/filename\*=['"]?utf-8['"]?['\'\'\s]*([^;\s"]+)/i` (main.js 195). -/
def utf8Pattern : List Atom :=
  literal "filename*=" ++ [Atom.opt isQuote] ++ literal "utf-8" ++
    [Atom.opt isQuote, Atom.star isAposOrSpace, Atom.capturePlus isValueChar]

/-- The pattern `/filename=['"]?([^;\s"]+)['"]?/i` (main.js 200). -/
def filenamePattern : List Atom :=
  literal "filename=" ++ [Atom.opt isQuote, Atom.capturePlus isValueChar, Atom.opt isQuote]

/-- The call `subject.includes(needle)`. -/
def includes (needle : List Char) : List Char → Bool
  | [] => needle.isPrefixOf []
  | x :: xs => needle.isPrefixOf (x :: xs) || includes needle xs

/-! ## `decodeURIComponent` (ECMA-262 `Decode` with an empty reserved set) -/

def hexVal (c : Char) : Option Nat :=
  if '0' ≤ c ∧ c ≤ '9' then some (c.toNat - 48)
  else if 'a' ≤ c ∧ c ≤ 'f' then some (c.toNat - 87)
  else if 'A' ≤ c ∧ c ≤ 'F' then some (c.toNat - 55)
  else none

/-- A character of the input after percent-unescaping: itself, or the
octet written as `%XX`. -/
inductive Unit8 where
  | raw (c : Char)
  | octet (b : Nat)
  deriving DecidableEq, Repr

/-- First pass of `Decode`: every `%` must be followed by two hexadecimal
digits; `none` is the `URIError`. -/
def unescapeOctets : List Char → Option (List Unit8)
  | [] => some []
  | '%' :: h1 :: h2 :: rest =>
    match hexVal h1, hexVal h2, unescapeOctets rest with
    | some a, some b, some us => some (Unit8.octet (16 * a + b) :: us)
    | _, _, _ => none
  | '%' :: _ => none
  | c :: rest => (unescapeOctets rest).map (fun us => Unit8.raw c :: us)

/-- A continuation octet `10xxxxxx` of UTF-8. -/
def isContinuation (b : Nat) : Bool := 0x80 ≤ b && b < 0xC0

/-- A Unicode scalar value that needs at least `lo`: neither an overlong
encoding, nor a surrogate, nor beyond U+10FFFF. -/
def scalarFrom (lo v : Nat) : Option Char :=
  if lo ≤ v ∧ v ≤ 0x10FFFF ∧ ¬ (0xD800 ≤ v ∧ v ≤ 0xDFFF) then some (Char.ofNat v) else none

/-- Second pass of `Decode`: an octet below 0x80 is that character; a lead
octet must be followed by its escaped continuation octets and the sequence
must be the UTF-8 encoding of a code point; `none` is the `URIError`. -/
def decodeOctets : List Unit8 → Option (List Char)
  | [] => some []
  | Unit8.raw c :: rest => (decodeOctets rest).map (fun cs => c :: cs)
  | Unit8.octet b0 :: rest =>
    if b0 < 0x80 then (decodeOctets rest).map (fun cs => Char.ofNat b0 :: cs)
    else if b0 < 0xC0 then none
    else if b0 < 0xE0 then
      match rest with
      | Unit8.octet b1 :: rest1 =>
        if isContinuation b1 then
          match scalarFrom 0x80 ((b0 - 0xC0) * 64 + (b1 - 0x80)), decodeOctets rest1 with
          | some c, some cs => some (c :: cs)
          | _, _ => none
        else none
      | _ => none
    else if b0 < 0xF0 then
      match rest with
      | Unit8.octet b1 :: Unit8.octet b2 :: rest2 =>
        if isContinuation b1 ∧ isContinuation b2 then
          match scalarFrom 0x800 ((b0 - 0xE0) * 4096 + (b1 - 0x80) * 64 + (b2 - 0x80)),
              decodeOctets rest2 with
          | some c, some cs => some (c :: cs)
          | _, _ => none
        else none
      | _ => none
    else if b0 < 0xF8 then
      match rest with
      | Unit8.octet b1 :: Unit8.octet b2 :: Unit8.octet b3 :: rest3 =>
        if isContinuation b1 ∧ isContinuation b2 ∧ isContinuation b3 then
          match scalarFrom 0x10000
              ((b0 - 0xF0) * 262144 + (b1 - 0x80) * 4096 + (b2 - 0x80) * 64 + (b3 - 0x80)),
              decodeOctets rest3 with
          | some c, some cs => some (c :: cs)
          | _, _ => none
        else none
      | _ => none
    else none

/-- The call `decodeURIComponent(s)`; `none` when it throws a `URIError`. -/
def decodeURIComponent (s : List Char) : Option (List Char) :=
  (unescapeOctets s).bind decodeOctets

/-! ## The generate request and its response (main.js 166-229) -/

/-- The JSON body of `POST /api/reports/generate` (main.js 171-176). -/
structure ReportRequest where
  report_type : String
  devices : List String
  start_date : String
  end_date : String
  deriving DecidableEq, Repr

/-- The binary payload read by `response.blob()`. -/
abbrev Blob := List Nat

/-- What `await response.json()` gives on a non-success response, as far
as `errorData.detail` reads it. The error envelope of the interface is
`{ detail: string }`; other types of `detail` are not modelled. -/
inductive ErrorBody where
  /-- The promise rejects (the body is not JSON): the message of the error. -/
  | unparseable (message : String)
  /-- The body is the JSON value `null`. -/
  | jsonNull
  /-- The body is a JSON value other than `null` without a `detail` property. -/
  | noDetail
  /-- The body is an object whose `detail` is the string `s`. -/
  | detail (s : String)
  deriving DecidableEq, Repr

/-- A response of the generate endpoint, as far as the handler reads it. -/
structure Response where
  ok : Bool
  /-- Outcome of `response.json()`. -/
  json : ErrorBody
  /-- Outcome of `response.blob()`: the payload, or the message of the
  error the promise rejects with. -/
  blob : Except String Blob
  /-- The value of `response.headers.get('content-disposition')`, `none` for `null`. -/
  contentDisposition : Option String
  /-- The value of `response.headers.get('content-type')`, `none` for `null`. -/
  contentType : Option String

/-- How `await fetch(…)` of the generate request ends. -/
inductive FetchOutcome where
  /-- The promise rejects with an error of this message (transport error). -/
  | rejected (message : String)
  /-- The promise never settles. -/
  | pending
  | response (r : Response)

/-- The observable actions of `handleGenerateReport`, in program order. -/
inductive Effect where
  /-- A call `setStatus(message, isError)`. -/
  | setStatus (message : String) (isError : Bool)
  /-- The assignment `generateBtn.disabled = disabled`. -/
  | setDisabled (disabled : Bool)
  /-- The call `fetch('/api/reports/generate', …)` with this JSON body. -/
  | fetchGenerate (body : ReportRequest)
  /-- The call `response.json()`. -/
  | readJson
  /-- The call `response.blob()`. -/
  | readBlob
  /-- The save of main.js 214-221: an object URL for the payload, a click
  on an anchor whose `download` is `filename`, the URL revoked. -/
  | download (filename : String) (payload : Blob)
  deriving DecidableEq, Repr

def xlsxMime : String := "application/vnd.openxmlformats-officedocument.spreadsheetml.sheet"
def zipMime : String := "application/zip"
def defaultFilename : String := "report.zip"
def msgGenerating : String := "正在生成报表，请稍候..."
def msgSuccess : String := "报表生成成功！已开始下载。"
def msgGenericFailure : String := "生成失败"

/-- The status text of the `catch` block (main.js 226). -/
def failureStatus (message : String) : String := "生成报表失败: " ++ message

/-- The call `s.endsWith(suffix)`. -/
def endsWith (s suffix : String) : Bool :=
  decide (suffix.data <:+ s.data)

/-- The value thrown at main.js 186-187, as the message the `catch` block
reads: `errorData.detail || '生成失败'`, or the message of the error that
`response.json()` or the property read raised. -/
def errorMessage (env : Env) : ErrorBody → String
  | ErrorBody.unparseable message => message
  | ErrorBody.jsonNull => env.nullReadMessage
  | ErrorBody.noDetail => msgGenericFailure
  | ErrorBody.detail s => if s = "" then msgGenericFailure else s

/-- The filename taken from a non-empty disposition header (main.js
194-204); `Except.error` carries the message of a thrown `URIError`. -/
def resolveFilename (env : Env) (contentDisposition : String) : Except String String :=
  if includes "filename*=".data contentDisposition.data then
    match regexMatch utf8Pattern contentDisposition.data with
    | some value =>
      match decodeURIComponent value with
      | some name => Except.ok (String.mk name)
      | none => Except.error env.uriErrorMessage
    | none => Except.ok defaultFilename
  else
    match regexMatch filenamePattern contentDisposition.data with
    | some value =>
      match decodeURIComponent value with
      | some name => Except.ok (String.mk name)
      | none => Except.error env.uriErrorMessage
    | none => Except.ok defaultFilename

/-- The extension repair of main.js 206-211 (`===` on the header value). -/
def repairExtension (contentType : Option String) (filename : String) : String :=
  if contentType = some xlsxMime ∧ endsWith filename ".xlsx" = false then filename ++ ".xlsx"
  else if contentType = some zipMime ∧ endsWith filename ".zip" = false then filename ++ ".zip"
  else filename

/-- The value of `filename` at main.js 217 (lines 191-212): the default
when the header is `null` or empty, otherwise the resolved and repaired
name; `Except.error` when `decodeURIComponent` throws. -/
def downloadFilename (env : Env) (r : Response) : Except String String :=
  match r.contentDisposition with
  | none => Except.ok defaultFilename
  | some cd =>
    if cd = "" then Except.ok defaultFilename
    else
      match resolveFilename env cd with
      | Except.ok name => Except.ok (repairExtension r.contentType name)
      | Except.error e => Except.error e

/-- The `catch` block (main.js 225-227). -/
def catchBlock (message : String) : List Effect :=
  [Effect.setStatus (failureStatus message) true]

/-- The `try` block after the response has arrived, with the `catch` block
when it throws (main.js 185-227). -/
def handleResponse (env : Env) (r : Response) : List Effect :=
  if r.ok = false then
    Effect.readJson :: catchBlock (errorMessage env r.json)
  else
    Effect.readBlob ::
      match r.blob with
      | Except.error e => catchBlock e
      | Except.ok payload =>
        match downloadFilename env r with
        | Except.error e => catchBlock e
        | Except.ok filename =>
          [Effect.download filename payload, Effect.setStatus msgSuccess false]

/-- The request body of main.js 169-176. -/
def requestBody (form : Form) : ReportRequest :=
  { report_type := form.reportType
    devices := (checkedCheckboxes form.deviceList).map (fun cb => cb.value)
    start_date := form.startDate
    end_date := form.endDate }

/-- Function `handleGenerateReport` (main.js 124-230) as the list of its effects.
The guard of lines 125-128 cannot fire: the listener is only attached when
every required element exists (lines 31-36). The `finally` block runs once
the awaited operations have settled. -/
def handleGenerateReport (env : Env) (form : Form) (net : FetchOutcome) : List Effect :=
  match validate env form with
  | some message => [Effect.setStatus message true]
  | none =>
    [Effect.setDisabled true, Effect.setStatus msgGenerating false,
      Effect.fetchGenerate (requestBody form)] ++
    match net with
    | FetchOutcome.pending => []
    | FetchOutcome.rejected message => catchBlock message ++ [Effect.setDisabled false]
    | FetchOutcome.response r => handleResponse env r ++ [Effect.setDisabled false]

/-- The state of the generate button after a list of effects. -/
def disabledAfter (initial : Bool) (effects : List Effect) : Bool :=
  effects.foldl (fun d e => match e with
    | Effect.setDisabled b => b
    | _ => d) initial

def isFetch : Effect → Bool
  | Effect.fetchGenerate _ => true
  | _ => false

def isDownload : Effect → Bool
  | Effect.download _ _ => true
  | _ => false

def isErrorStatus : Effect → Bool
  | Effect.setStatus _ isError => isError
  | _ => false

/-! ## Debounced search (main.js 38, 69-77, 234-242)

Time is counted in milliseconds. The page state keeps the timers that
`setTimeout` has scheduled and that have neither run nor been cleared; the
callback of every timer of this page is `fetchDevices`. -/

/-- A timer scheduled by `setTimeout(fetchDevices, …)`. -/
structure Timer where
  id : Nat
  due : Nat
  deriving DecidableEq, Repr

/-- A directory query `GET /api/devices?…` and the time it was issued at. -/
structure Query where
  time : Nat
  params : List (String × String)
  deriving DecidableEq, Repr

structure SearchState where
  now : Nat
  /-- The value of the customer search field, `searchCustomer.value`. -/
  searchCustomer : String
  /-- The value of the device search field, `searchDevice.value`. -/
  searchDevice : String
  /-- The variable `debounceTimer`; `none` for `undefined`. -/
  debounceTimer : Option Nat
  /-- Scheduled timers, in the order they were scheduled. -/
  timers : List Timer
  nextTimerId : Nat
  /-- The directory queries issued so far, oldest first. -/
  queries : List Query
  deriving DecidableEq, Repr

/-- The search parameters built at main.js 73-77: a parameter is appended
only when its field is non-empty. -/
def searchParams (customerQuery deviceQuery : String) : List (String × String) :=
  (if customerQuery = "" then [] else [("customer_name", customerQuery)]) ++
    (if deviceQuery = "" then [] else [("device_code", deviceQuery)])

/-- Function `fetchDevices` up to the `fetch(url)` call (main.js 69-80): the query
is issued with the field values of the moment of the call. -/
def fetchDevices (st : SearchState) : SearchState :=
  { st with queries := st.queries ++
      [{ time := st.now, params := searchParams st.searchCustomer st.searchDevice }] }

/-- The call `clearTimeout(id)`: no effect for `undefined` or an id that is not
scheduled. -/
def clearTimeout (id : Option Nat) (st : SearchState) : SearchState :=
  match id with
  | none => st
  | some i => { st with timers := st.timers.filter (fun t => t.id != i) }

/-- The call `setTimeout(fetchDevices, delay)`: the new timer id and the new state. -/
def setTimeout (delay : Nat) (st : SearchState) : Nat × SearchState :=
  (st.nextTimerId,
    { st with
      timers := st.timers ++ [{ id := st.nextTimerId, due := st.now + delay }]
      nextTimerId := st.nextTimerId + 1 })

/-- The body of both `input` listeners (main.js 234-242). -/
def onInput (st : SearchState) : SearchState :=
  let st1 := clearTimeout st.debounceTimer st
  let (id, st2) := setTimeout 300 st1
  { st2 with debounceTimer := some id }

/-- A scheduled timer runs: it leaves the list and `fetchDevices` is called
at its due time. -/
def fireTimer (st : SearchState) (t : Timer) : SearchState :=
  fetchDevices { st with now := t.due, timers := st.timers.filter (fun u => u.id != t.id) }

/-- The timers due at time `t` or before, earliest first (scheduling order
among equal due times). -/
def dueTimers (t : Nat) (st : SearchState) : List Timer :=
  (st.timers.filter (fun u => u.due ≤ t)).insertionSort (fun a b => a.due ≤ b.due)

/-- The event loop runs until time `t`: every timer due by then fires. -/
def advanceTo (t : Nat) (st : SearchState) : SearchState :=
  { (dueTimers t st).foldl fireTimer st with now := t }

inductive SearchField where
  | customer
  | device
  deriving DecidableEq, Repr

/-- An `input` event: `gap` milliseconds after the previous one, the field
it is fired on and the value the field has at the event. -/
structure InputEvent where
  gap : Nat
  field : SearchField
  value : String
  deriving DecidableEq, Repr

/-- The field gets its new value. -/
def setField (field : SearchField) (value : String) (st : SearchState) : SearchState :=
  match field with
  | SearchField.customer => { st with searchCustomer := value }
  | SearchField.device => { st with searchDevice := value }

/-- One `input` event: time passes, the field changes, the listener runs. -/
def inputStep (st : SearchState) (ev : InputEvent) : SearchState :=
  onInput (setField ev.field ev.value (advanceTo (st.now + ev.gap) st))

/-- A sequence of `input` events. -/
def runInputs (st : SearchState) (events : List InputEvent) : SearchState :=
  events.foldl inputStep st

/-- The latest due time of the scheduled timers (`now` when there is none). -/
def lastDue (st : SearchState) : Nat :=
  st.timers.foldl (fun m t => max m t.due) st.now

/-- No further event arrives: every scheduled timer fires. -/
def settle (st : SearchState) : SearchState :=
  advanceTo (lastDue st) st

/-- The field values after a sequence of events (customer, device). -/
def fieldsAfter : String × String → List InputEvent → String × String
  | fields, [] => fields
  | (c, d), ev :: rest =>
    match ev.field with
    | SearchField.customer => fieldsAfter (ev.value, d) rest
    | SearchField.device => fieldsAfter (c, ev.value) rest

/-- The time of the last event of a sequence that starts at time `start`. -/
def timeAfter (start : Nat) (events : List InputEvent) : Nat :=
  start + (events.map (fun ev => ev.gap)).sum

/-! ## The stated contract, for comparison with the code -/

/-- The calendar-month span of the contract, from the year and month
written in the two dates: `(endYear-startYear)*12 + (endMonth-startMonth)`. -/
def writtenMonthSpan (start finish : CivilDate) : Int :=
  ((finish.year : Int) - start.year) * 12 + ((finish.month : Int) - start.month)

/-- The written date `a` is strictly after the written date `b`. -/
def writtenAfter (a b : CivilDate) : Bool :=
  decide (b.year < a.year ∨ (b.year = a.year ∧
    (b.month < a.month ∨ (b.month = a.month ∧ b.day < a.day))))

/-- Check (3) of the contract fails: the start date is strictly after the
end date, both read as the calendar dates written in the fields. -/
def startIsAfterEnd (startDate endDate : String) : Bool :=
  match parseDateOnly startDate, parseDateOnly endDate with
  | some start, some finish => writtenAfter start finish
  | _, _ => false

/-- Check (4) of the contract fails: the calendar-month span written in the
two dates is 2 or more. -/
def spanIsTwoOrMore (startDate endDate : String) : Bool :=
  match parseDateOnly startDate, parseDateOnly endDate with
  | some start, some finish => decide (2 ≤ writtenMonthSpan start finish)
  | _, _ => false

/-- The five checks in the order the contract lists them, each with
whether it fails on the form and the message it reports. They are read off
the values written in the form and do not depend on the browser. -/
def orderedChecks (form : Form) : List (Bool × String) :=
  [ (decide (form.reportType = ""), msgReportType),
    (decide (form.startDate = "" ∨ form.endDate = ""), msgDates),
    (startIsAfterEnd form.startDate form.endDate, msgDateOrder),
    (decide (form.reportType = "daily_consumption") &&
      spanIsTwoOrMore form.startDate form.endDate, msgSpan),
    (decide ((checkedCheckboxes form.deviceList).length = 0), msgDevices) ]

/-- The message of the first failing check of `orderedChecks`. -/
def firstFailure (form : Form) : Option String :=
  ((orderedChecks form).find? (fun c => c.1)).map (fun c => c.2)

/-- A date field holds a value of the modelled domain: it is empty or a
calendar date written as `YYYY-MM-DD`. -/
def isDateFieldValue (value : String) : Prop :=
  value = "" ∨ (parseDateOnly value).isSome = true

/-- The parameters of a header as the contract reads it: the pieces between
the `;` that stand outside double quotes. -/
def splitParameters : List Char → Bool → List Char → List (List Char)
  | [], _, current => [current.reverse]
  | c :: cs, quoted, current =>
    if c = '"' then splitParameters cs (!quoted) (c :: current)
    else if c = ';' ∧ quoted = false then current.reverse :: splitParameters cs false []
    else splitParameters cs quoted (c :: current)

def trimSpaces (s : List Char) : List Char :=
  ((s.dropWhile isJsSpace).reverse.dropWhile isJsSpace).reverse

/-- The text after `name=` when the parameter has that name. -/
def parameterValue (name : String) (parameter : List Char) : Option (List Char) :=
  if (name.data ++ ['=']).isPrefixOf (trimSpaces parameter) then
    some ((trimSpaces parameter).drop (name.length + 1))
  else none

/-- The value of an extended parameter of the form `UTF-8''<value>`. -/
def extendedValue (value : List Char) : Option (List Char) :=
  if "UTF-8''".data.isPrefixOf value then some (value.drop 7) else none

/-- A quoted value without its quotes; a bare value as it is. -/
def unquote (value : List Char) : List Char :=
  match value with
  | '"' :: rest => if rest.getLast? = some '"' then rest.dropLast else value
  | _ => value

/-- The filename as the contract states it: the percent-decoding of the
value of the extended `filename*=` parameter of the form `UTF-8''<value>`
if there is one, otherwise that of the value of the plain `filename=`
parameter, quoted or bare, otherwise "report.zip"; `none` when the value
has no percent-decoding. -/
def contractFilename (header : String) : Option String :=
  match (splitParameters header.data false []).findSome?
      (fun p => (parameterValue "filename*" p).bind extendedValue) with
  | some value => (decodeURIComponent value).map String.mk
  | none =>
    match (splitParameters header.data false []).findSome? (parameterValue "filename") with
    | some value => (decodeURIComponent (unquote value)).map String.mk
    | none => some "report.zip"

/-! ## Sample environments and inputs -/

/-- A browser in China Standard Time (UTC+8), V8 error messages. -/
def envShanghai : Env :=
  { localTZA := fun _ => 8 * 3600000
    uriErrorMessage := "URI malformed"
    nullReadMessage := "Cannot read properties of null (reading 'detail')" }

/-- A browser in New York in winter (UTC-5), V8 error messages. -/
def envNewYork : Env :=
  { localTZA := fun _ => -5 * 3600000
    uriErrorMessage := "URI malformed"
    nullReadMessage := "Cannot read properties of null (reading 'detail')" }

/-- A form that passes validation: one device checked out of two. -/
def sampleForm : Form :=
  { reportType := "daily_consumption"
    startDate := "2024-01-01"
    endDate := "2024-01-31"
    deviceList := [{ value := "D001", checked := true }, { value := "D002", checked := false }] }

/-- A success response carrying a payload and the two headers. -/
def okResponse (contentDisposition contentType : Option String) : Response :=
  { ok := true
    json := ErrorBody.unparseable "Unexpected token 'P', \"PK\"... is not valid JSON"
    blob := Except.ok [80, 75, 3, 4]
    contentDisposition := contentDisposition
    contentType := contentType }

/-- A non-success response with the given body. -/
def errorResponse (body : ErrorBody) : Response :=
  { ok := false
    json := body
    blob := Except.ok []
    contentDisposition := none
    contentType := some "application/json" }

/-- The sample form with no report type selected. -/
def formNoType : Form :=
  { sampleForm with reportType := "" }

/-- A form of the daily-consumption report with one device checked. -/
def dailyForm (startDate endDate : String) : Form :=
  { reportType := "daily_consumption"
    startDate := startDate
    endDate := endDate
    deviceList := [{ value := "D001", checked := true }] }

/-- The daily-consumption form for 2024-01-01 .. 2024-02-15 (written month
span 1) with no device checked. -/
def formShortSpanNoDevice : Form :=
  { reportType := "daily_consumption"
    startDate := "2024-01-01"
    endDate := "2024-02-15"
    deviceList := [{ value := "D001", checked := false }] }

/-! ## Shapes of disposition headers, for the statements about `resolveFilename` -/

/-- A parameter value the patterns read whole: a non-empty run of
characters other than `;`, white space and `"`. -/
def isValueRun (v : List Char) : Prop :=
  v ≠ [] ∧ ∀ c ∈ v, isValueChar c = true

/-- The text after a value ends it: the header ends there, or the next
character is `;`, white space or `"`. -/
def endsValue (post : List Char) : Prop :=
  ∀ c, post.head? = some c → isValueChar c = false

/-- The literal characters `lits` match the start of the subject under
the `i` flag: the rest of the subject. -/
def litMatch : List Char → List Char → Option (List Char)
  | [], s => some s
  | _ :: _, [] => none
  | c :: cs, x :: xs => if ciEq x c then litMatch cs xs else none

/-- One query is scheduled, 300 ms after the current time, and
`debounceTimer` holds its id. -/
def Armed (st : SearchState) : Prop :=
  ∃ id, st.timers = [{ id := id, due := st.now + 300 }] ∧ st.debounceTimer = some id

/-- The state of the search page after it has loaded and the first query
has been issued: nothing is scheduled. -/
def idleState : SearchState :=
  { now := 1000
    searchCustomer := ""
    searchDevice := ""
    debounceTimer := none
    timers := []
    nextTimerId := 1
    queries := [{ time := 0, params := [] }] }

/-- Three keystrokes, 120 ms and 250 ms apart. -/
def sampleTyping : List InputEvent :=
  [ { gap := 40, field := SearchField.customer, value := "a" },
    { gap := 120, field := SearchField.customer, value := "ac" },
    { gap := 250, field := SearchField.device, value := "7" } ]

/-- The literal `lits` occurs in the subject in some case mix: it matches
at some position under the `i` flag. -/
def occursCI (lits : List Char) : List Char → Bool
  | [] => (litMatch lits []).isSome
  | x :: xs => (litMatch lits (x :: xs)).isSome || occursCI lits xs

/-! ## Theorems -/

theorem checkedCheckboxes_sample (selected total : Nat) (h : selected ≤ total) :
    (checkedCheckboxes (sampleDeviceList selected total)).length = selected ∧
      (sampleDeviceList selected total).length = total := by
  constructor
  · simp [checkedCheckboxes, sampleDeviceList, List.filter_append, List.filter_replicate]
  · simp [sampleDeviceList]
    omega

/-- C9: for every pair `selected ≤ total` there is a device list with
these counts, and on every such list `updateSelectedCount` leaves the
select-all control checked iff `selected = total` and `total > 0`,
indeterminate iff `0 < selected < total`, never both, and the count label
shows `selected`. -/
theorem updateSelectedCount_tristate (selected total : Nat) (h : selected ≤ total) :
    (∃ boxes : List Checkbox,
      (checkedCheckboxes boxes).length = selected ∧ boxes.length = total) ∧
    ∀ boxes : List Checkbox,
      (checkedCheckboxes boxes).length = selected → boxes.length = total →
      (((updateSelectedCount boxes).selectAll.checked = true ↔ selected = total ∧ 0 < total) ∧
       ((updateSelectedCount boxes).selectAll.indeterminate = true ↔
          0 < selected ∧ selected < total) ∧
       ¬ ((updateSelectedCount boxes).selectAll.checked = true ∧
          (updateSelectedCount boxes).selectAll.indeterminate = true) ∧
       (updateSelectedCount boxes).countLabel = "(已选 " ++ toString selected ++ " 台)") := by
  refine ⟨⟨sampleDeviceList selected total, checkedCheckboxes_sample selected total h⟩, ?_⟩
  intro boxes hsel htot
  unfold updateSelectedCount
  simp only [hsel, htot, countLabel]
  split_ifs with h1 h2
  · simp; omega
  · simp; omega
  · simp; omega

theorem updateSelectedCount_tristate_witness :
    (∃ boxes : List Checkbox, (checkedCheckboxes boxes).length = 1 ∧ boxes.length = 3) ∧
    ∀ boxes : List Checkbox,
      (checkedCheckboxes boxes).length = 1 → boxes.length = 3 →
      (((updateSelectedCount boxes).selectAll.checked = true ↔ 1 = 3 ∧ 0 < 3) ∧
       ((updateSelectedCount boxes).selectAll.indeterminate = true ↔ 0 < 1 ∧ 1 < 3) ∧
       ¬ ((updateSelectedCount boxes).selectAll.checked = true ∧
          (updateSelectedCount boxes).selectAll.indeterminate = true) ∧
       (updateSelectedCount boxes).countLabel = "(已选 " ++ toString 1 ++ " 台)") :=
  updateSelectedCount_tristate 1 3 (by decide)

theorem handleResponse_no_setDisabled (env : Env) (r : Response) (b : Bool) :
    Effect.setDisabled b ∉ handleResponse env r := by
  unfold handleResponse catchBlock
  split_ifs
  · simp
  · cases r.blob with
    | error e => simp
    | ok payload =>
      cases downloadFilename env r with
      | error e => simp
      | ok name => simp

/-- C8 (counterexample): with an empty report type the handler only
reports the validation message: the trigger is not disabled on invocation
and is not re-enabled once, it is never written. -/
theorem trigger_untouched_on_validation_failure :
    handleGenerateReport envShanghai formNoType FetchOutcome.pending =
        [Effect.setStatus "请选择报表类型。" true] ∧
      (handleGenerateReport envShanghai formNoType
        FetchOutcome.pending).head? ≠ some (Effect.setDisabled true) ∧
      (handleGenerateReport envShanghai formNoType
        FetchOutcome.pending).count (Effect.setDisabled false) ≠ 1 := by
  decide

/-- C8 (amended): when validation passes and the request settles, the
trigger is disabled as the first effect, before the request is issued, and
re-enabled exactly once, as the last effect, on the success and on the
failure path; when validation fails the trigger is neither disabled nor
re-enabled; in both cases an invocation that starts with the trigger
enabled ends with it enabled. -/
theorem handleGenerateReport_trigger (env : Env) (form : Form) (net : FetchOutcome)
    (hnet : net ≠ FetchOutcome.pending) :
    (validate env form = none →
      ∃ middle : List Effect,
        handleGenerateReport env form net =
          [Effect.setDisabled true, Effect.setStatus msgGenerating false,
            Effect.fetchGenerate (requestBody form)] ++ middle ++ [Effect.setDisabled false] ∧
        ∀ b, Effect.setDisabled b ∉ middle) ∧
    (validate env form ≠ none → ∀ b, Effect.setDisabled b ∉ handleGenerateReport env form net) ∧
    disabledAfter false (handleGenerateReport env form net) = false := by
  refine ⟨?_, ?_, ?_⟩
  · intro hv
    cases net with
    | pending => exact absurd rfl hnet
    | rejected message =>
      exact ⟨catchBlock message, by simp [handleGenerateReport, hv], by simp [catchBlock]⟩
    | response r =>
      exact ⟨handleResponse env r, by simp [handleGenerateReport, hv],
        fun b => handleResponse_no_setDisabled env r b⟩
  · intro hv b
    cases h : validate env form with
    | none => exact absurd h hv
    | some message => simp [handleGenerateReport, h]
  · cases h : validate env form with
    | some message => simp [handleGenerateReport, h, disabledAfter]
    | none =>
      cases net with
      | pending => exact absurd rfl hnet
      | rejected message => simp [handleGenerateReport, h, disabledAfter, List.foldl_append]
      | response r => simp [handleGenerateReport, h, disabledAfter, List.foldl_append]

theorem handleGenerateReport_trigger_witness :
    (validate envShanghai sampleForm = none →
      ∃ middle : List Effect,
        handleGenerateReport envShanghai sampleForm (FetchOutcome.rejected "Failed to fetch") =
          [Effect.setDisabled true, Effect.setStatus msgGenerating false,
            Effect.fetchGenerate (requestBody sampleForm)] ++ middle ++
            [Effect.setDisabled false] ∧
        ∀ b, Effect.setDisabled b ∉ middle) ∧
    (validate envShanghai sampleForm ≠ none →
      ∀ b, Effect.setDisabled b ∉
        handleGenerateReport envShanghai sampleForm (FetchOutcome.rejected "Failed to fetch")) ∧
    disabledAfter false
      (handleGenerateReport envShanghai sampleForm (FetchOutcome.rejected "Failed to fetch")) =
        false :=
  handleGenerateReport_trigger envShanghai sampleForm (FetchOutcome.rejected "Failed to fetch")
    (by simp)

theorem endsWith_append (f suffix : String) : endsWith (f ++ suffix) suffix = true := by
  simp [endsWith, String.data_append]

theorem repairExtension_idem (contentType : Option String) (f : String) :
    repairExtension contentType (repairExtension contentType f) = repairExtension contentType f := by
  have hne : xlsxMime ≠ zipMime := by decide
  unfold repairExtension
  by_cases h1 : contentType = some xlsxMime
  · subst h1
    by_cases h2 : endsWith f ".xlsx" = false
    · simp [h2, endsWith_append, hne]
    · simp [h2, hne]
  · by_cases h3 : contentType = some zipMime
    · subst h3
      by_cases h4 : endsWith f ".zip" = false
      · simp [h4, endsWith_append, Ne.symm hne]
      · simp [h4, Ne.symm hne]
    · simp [h1, h3]

theorem handleGenerateReport_success (env : Env) (form : Form) (r : Response) (payload : Blob)
    (name : String) (hv : validate env form = none) (hok : r.ok = true)
    (hblob : r.blob = Except.ok payload) (hname : downloadFilename env r = Except.ok name) :
    handleGenerateReport env form (FetchOutcome.response r) =
      [Effect.setDisabled true, Effect.setStatus msgGenerating false,
        Effect.fetchGenerate (requestBody form), Effect.readBlob,
        Effect.download name payload, Effect.setStatus msgSuccess false,
        Effect.setDisabled false] := by
  simp [handleGenerateReport, hv, handleResponse, hok, hblob, hname]

/-- C3 (counterexample): a success response without a disposition header
and with the spreadsheet content type is saved as "report.zip", not as
"report.xlsx". -/
theorem no_disposition_spreadsheet_saved_as_zip :
    handleGenerateReport envShanghai sampleForm
        (FetchOutcome.response (okResponse none
          (some "application/vnd.openxmlformats-officedocument.spreadsheetml.sheet"))) =
      [Effect.setDisabled true, Effect.setStatus "正在生成报表，请稍候..." false,
        Effect.fetchGenerate (requestBody sampleForm), Effect.readBlob,
        Effect.download "report.zip" [80, 75, 3, 4],
        Effect.setStatus "报表生成成功！已开始下载。" false, Effect.setDisabled false] ∧
    Effect.download "report.xlsx" [80, 75, 3, 4] ∉
      handleGenerateReport envShanghai sampleForm
        (FetchOutcome.response (okResponse none
          (some "application/vnd.openxmlformats-officedocument.spreadsheetml.sheet"))) := by
  decide

/-- C3 (amended): for every success response without a disposition header
(the header is absent or empty) the payload is saved as "report.zip",
whatever the content type: the extension repair is only reached when the
header is present. -/
theorem handleGenerateReport_no_disposition (env : Env) (form : Form) (r : Response)
    (payload : Blob) (hv : validate env form = none) (hok : r.ok = true)
    (hblob : r.blob = Except.ok payload)
    (hcd : r.contentDisposition = none ∨ r.contentDisposition = some "") :
    handleGenerateReport env form (FetchOutcome.response r) =
      [Effect.setDisabled true, Effect.setStatus msgGenerating false,
        Effect.fetchGenerate (requestBody form), Effect.readBlob,
        Effect.download "report.zip" payload, Effect.setStatus msgSuccess false,
        Effect.setDisabled false] := by
  apply handleGenerateReport_success env form r payload "report.zip" hv hok hblob
  rcases hcd with h | h <;> simp [downloadFilename, h, defaultFilename]

theorem handleGenerateReport_no_disposition_witness :
    handleGenerateReport envShanghai sampleForm
        (FetchOutcome.response (okResponse none (some "application/zip"))) =
      [Effect.setDisabled true, Effect.setStatus msgGenerating false,
        Effect.fetchGenerate (requestBody sampleForm), Effect.readBlob,
        Effect.download "report.zip" [80, 75, 3, 4], Effect.setStatus msgSuccess false,
        Effect.setDisabled false] :=
  handleGenerateReport_no_disposition envShanghai sampleForm
    (okResponse none (some "application/zip")) [80, 75, 3, 4] (by decide) rfl rfl (Or.inl rfl)

/-- C6: for a success response whose disposition header resolves to `f`,
the saved name is `f ++ ".xlsx"` for the spreadsheet type when `f` lacks
that suffix, `f ++ ".zip"` for the archive type when `f` lacks that suffix,
and `f` otherwise; the saved name then ends with the suffix of a
spreadsheet or archive content type, and repairing it again changes
nothing. -/
theorem handleGenerateReport_extension_repair (env : Env) (form : Form) (r : Response)
    (payload : Blob) (cd f : String) (hv : validate env form = none) (hok : r.ok = true)
    (hblob : r.blob = Except.ok payload) (hcd : r.contentDisposition = some cd)
    (hne : cd ≠ "") (hf : resolveFilename env cd = Except.ok f) :
    ∃ saved : String,
      handleGenerateReport env form (FetchOutcome.response r) =
        [Effect.setDisabled true, Effect.setStatus msgGenerating false,
          Effect.fetchGenerate (requestBody form), Effect.readBlob,
          Effect.download saved payload, Effect.setStatus msgSuccess false,
          Effect.setDisabled false] ∧
      (r.contentType = some "application/vnd.openxmlformats-officedocument.spreadsheetml.sheet" →
        endsWith f ".xlsx" = false → saved = f ++ ".xlsx") ∧
      (r.contentType = some "application/zip" → endsWith f ".zip" = false →
        saved = f ++ ".zip") ∧
      (¬ (r.contentType = some "application/vnd.openxmlformats-officedocument.spreadsheetml.sheet" ∧
            endsWith f ".xlsx" = false) →
        ¬ (r.contentType = some "application/zip" ∧ endsWith f ".zip" = false) → saved = f) ∧
      (r.contentType = some "application/vnd.openxmlformats-officedocument.spreadsheetml.sheet" →
        endsWith saved ".xlsx" = true) ∧
      (r.contentType = some "application/zip" → endsWith saved ".zip" = true) ∧
      repairExtension r.contentType saved = saved := by
  have hne2 : xlsxMime ≠ zipMime := by decide
  refine ⟨repairExtension r.contentType f, ?_, ?_, ?_, ?_, ?_, ?_, ?_⟩
  · apply handleGenerateReport_success env form r payload _ hv hok hblob
    simp [downloadFilename, hcd, hne, hf]
  · intro h1 h2
    simp [repairExtension, h1, h2, xlsxMime]
  · intro h1 h2
    have h3 : ¬ ("application/zip" = xlsxMime) := fun h => hne2 (by rw [← h]; rfl)
    simp [repairExtension, h1, h2, zipMime, h3]
  · intro h1 h2
    have h1' : ¬ (r.contentType = some xlsxMime ∧ endsWith f ".xlsx" = false) := h1
    have h2' : ¬ (r.contentType = some zipMime ∧ endsWith f ".zip" = false) := h2
    simp only [repairExtension, h1', h2', if_false]
  · intro h1
    have h1' : r.contentType = some xlsxMime := h1
    unfold repairExtension
    by_cases h2 : endsWith f ".xlsx" = false
    · simp [h1', h2, endsWith_append]
    · simp only [h1', h2, and_false, if_false]
      have h3 : ¬ (some xlsxMime = some zipMime) := by decide
      simp only [h3, false_and, if_false]
      simpa using h2
  · intro h1
    have h1' : r.contentType = some zipMime := h1
    unfold repairExtension
    have h3 : ¬ (some zipMime = some xlsxMime) := by decide
    by_cases h2 : endsWith f ".zip" = false
    · simp [h1', h2, h3, endsWith_append]
    · simp only [h1', h2, h3, and_false, false_and, if_false]
      simpa using h2
  · exact repairExtension_idem r.contentType f

theorem handleGenerateReport_extension_repair_witness :
    ∃ saved : String,
      handleGenerateReport envShanghai sampleForm (FetchOutcome.response
          (okResponse (some "attachment; filename=monthly")
            (some "application/vnd.openxmlformats-officedocument.spreadsheetml.sheet"))) =
        [Effect.setDisabled true, Effect.setStatus msgGenerating false,
          Effect.fetchGenerate (requestBody sampleForm), Effect.readBlob,
          Effect.download saved [80, 75, 3, 4], Effect.setStatus msgSuccess false,
          Effect.setDisabled false] ∧
      (some "application/vnd.openxmlformats-officedocument.spreadsheetml.sheet" =
          some "application/vnd.openxmlformats-officedocument.spreadsheetml.sheet" →
        endsWith "monthly" ".xlsx" = false → saved = "monthly" ++ ".xlsx") ∧
      (some "application/vnd.openxmlformats-officedocument.spreadsheetml.sheet" =
          some "application/zip" → endsWith "monthly" ".zip" = false →
        saved = "monthly" ++ ".zip") ∧
      (¬ (some "application/vnd.openxmlformats-officedocument.spreadsheetml.sheet" =
            some "application/vnd.openxmlformats-officedocument.spreadsheetml.sheet" ∧
            endsWith "monthly" ".xlsx" = false) →
        ¬ (some "application/vnd.openxmlformats-officedocument.spreadsheetml.sheet" =
            some "application/zip" ∧ endsWith "monthly" ".zip" = false) → saved = "monthly") ∧
      (some "application/vnd.openxmlformats-officedocument.spreadsheetml.sheet" =
          some "application/vnd.openxmlformats-officedocument.spreadsheetml.sheet" →
        endsWith saved ".xlsx" = true) ∧
      (some "application/vnd.openxmlformats-officedocument.spreadsheetml.sheet" =
          some "application/zip" → endsWith saved ".zip" = true) ∧
      repairExtension
        (some "application/vnd.openxmlformats-officedocument.spreadsheetml.sheet") saved = saved :=
  handleGenerateReport_extension_repair envShanghai sampleForm
    (okResponse (some "attachment; filename=monthly")
      (some "application/vnd.openxmlformats-officedocument.spreadsheetml.sheet"))
    [80, 75, 3, 4] "attachment; filename=monthly" "monthly" (by decide) rfl rfl rfl (by decide) rfl

/-- C7 (counterexample): a non-success response whose body carries the
`detail` field with the empty string makes the handler report the generic
message, not the `detail` string; and one whose body is not JSON makes it
report the message of the parse error, not the generic message. -/
theorem error_message_not_as_stated :
    handleGenerateReport envShanghai sampleForm
        (FetchOutcome.response (errorResponse (ErrorBody.detail ""))) =
      [Effect.setDisabled true, Effect.setStatus "正在生成报表，请稍候..." false,
        Effect.fetchGenerate (requestBody sampleForm), Effect.readJson,
        Effect.setStatus "生成报表失败: 生成失败" true, Effect.setDisabled false] ∧
    Effect.setStatus ("生成报表失败: " ++ "") true ∉
      handleGenerateReport envShanghai sampleForm
        (FetchOutcome.response (errorResponse (ErrorBody.detail ""))) ∧
    handleGenerateReport envShanghai sampleForm (FetchOutcome.response
        (errorResponse (ErrorBody.unparseable "Unexpected token < in JSON at position 0"))) =
      [Effect.setDisabled true, Effect.setStatus "正在生成报表，请稍候..." false,
        Effect.fetchGenerate (requestBody sampleForm), Effect.readJson,
        Effect.setStatus "生成报表失败: Unexpected token < in JSON at position 0" true,
        Effect.setDisabled false] ∧
    Effect.setStatus "生成报表失败: 生成失败" true ∉
      handleGenerateReport envShanghai sampleForm (FetchOutcome.response
        (errorResponse (ErrorBody.unparseable "Unexpected token < in JSON at position 0"))) := by
  decide

/-- C7 (amended): for every non-success response the handler reads the
body as JSON, reports one error status, never reads the payload as binary
and saves nothing; the message in that status is the `detail` string when
the body carries a non-empty one, and "生成失败" when the body parses
without a `detail` or with an empty one. -/
theorem handleGenerateReport_error_response (env : Env) (form : Form) (r : Response)
    (hv : validate env form = none) (hok : r.ok = false) :
    (∃ message : String,
      handleGenerateReport env form (FetchOutcome.response r) =
        [Effect.setDisabled true, Effect.setStatus msgGenerating false,
          Effect.fetchGenerate (requestBody form), Effect.readJson,
          Effect.setStatus ("生成报表失败: " ++ message) true, Effect.setDisabled false] ∧
      (∀ s, r.json = ErrorBody.detail s → s ≠ "" → message = s) ∧
      (r.json = ErrorBody.noDetail ∨ r.json = ErrorBody.detail "" → message = "生成失败")) ∧
    Effect.readBlob ∉ handleGenerateReport env form (FetchOutcome.response r) ∧
    (handleGenerateReport env form (FetchOutcome.response r)).any isDownload = false := by
  refine ⟨⟨errorMessage env r.json, ?_, ?_, ?_⟩, ?_, ?_⟩
  · simp [handleGenerateReport, hv, handleResponse, hok, catchBlock, failureStatus]
  · intro s hs hne
    simp [errorMessage, hs, hne]
  · intro h
    rcases h with h | h <;> simp [errorMessage, h, msgGenericFailure]
  · simp [handleGenerateReport, hv, handleResponse, hok, catchBlock]
  · simp [handleGenerateReport, hv, handleResponse, hok, catchBlock, isDownload]

theorem handleGenerateReport_error_response_witness :
    (∃ message : String,
      handleGenerateReport envShanghai sampleForm
          (FetchOutcome.response (errorResponse (ErrorBody.detail "设备不存在"))) =
        [Effect.setDisabled true, Effect.setStatus msgGenerating false,
          Effect.fetchGenerate (requestBody sampleForm), Effect.readJson,
          Effect.setStatus ("生成报表失败: " ++ message) true, Effect.setDisabled false] ∧
      (∀ s, (errorResponse (ErrorBody.detail "设备不存在")).json = ErrorBody.detail s →
        s ≠ "" → message = s) ∧
      ((errorResponse (ErrorBody.detail "设备不存在")).json = ErrorBody.noDetail ∨
        (errorResponse (ErrorBody.detail "设备不存在")).json = ErrorBody.detail "" →
        message = "生成失败")) ∧
    Effect.readBlob ∉ handleGenerateReport envShanghai sampleForm
      (FetchOutcome.response (errorResponse (ErrorBody.detail "设备不存在"))) ∧
    (handleGenerateReport envShanghai sampleForm
      (FetchOutcome.response (errorResponse (ErrorBody.detail "设备不存在")))).any isDownload =
        false :=
  handleGenerateReport_error_response envShanghai sampleForm
    (errorResponse (ErrorBody.detail "设备不存在")) (by decide) rfl

/-- C5 (code at the failing input): a success response whose disposition
header is `attachment; filename=%E6` is not saved under "report.zip": the
`URIError` of `decodeURIComponent` reaches the `catch` block, an error
status is reported and nothing is saved; a header without a filename
parameter and one with an unmatched `filename*=` form are saved under the
default name. -/
theorem malformed_escape_reports_error :
    handleGenerateReport envShanghai sampleForm (FetchOutcome.response
        (okResponse (some "attachment; filename=%E6") (some "application/zip"))) =
      [Effect.setDisabled true, Effect.setStatus "正在生成报表，请稍候..." false,
        Effect.fetchGenerate (requestBody sampleForm), Effect.readBlob,
        Effect.setStatus "生成报表失败: URI malformed" true, Effect.setDisabled false] ∧
    (handleGenerateReport envShanghai sampleForm (FetchOutcome.response
        (okResponse (some "attachment; filename=%E6") (some "application/zip")))).any
      isDownload = false ∧
    (handleGenerateReport envShanghai sampleForm (FetchOutcome.response
        (okResponse (some "attachment; filename=%E6") (some "application/zip")))).any
      isErrorStatus = true ∧
    handleGenerateReport envShanghai sampleForm (FetchOutcome.response
        (okResponse (some "attachment") (some "application/zip"))) =
      [Effect.setDisabled true, Effect.setStatus "正在生成报表，请稍候..." false,
        Effect.fetchGenerate (requestBody sampleForm), Effect.readBlob,
        Effect.download "report.zip" [80, 75, 3, 4],
        Effect.setStatus "报表生成成功！已开始下载。" false, Effect.setDisabled false] ∧
    handleGenerateReport envShanghai sampleForm (FetchOutcome.response
        (okResponse (some "attachment; filename*=ISO-8859-1''a.zip")
          (some "application/zip"))) =
      [Effect.setDisabled true, Effect.setStatus "正在生成报表，请稍候..." false,
        Effect.fetchGenerate (requestBody sampleForm), Effect.readBlob,
        Effect.download "report.zip" [80, 75, 3, 4],
        Effect.setStatus "报表生成成功！已开始下载。" false, Effect.setDisabled false] := by
  decide

theorem dayFromYear_bounds (y : Int) :
    146097 * (y - 1970) - 506 ≤ 400 * dayFromYear y ∧
      400 * dayFromYear y ≤ 146097 * (y - 1970) + 589 := by
  unfold dayFromYear
  omega

theorem dayFromYear_succ (y : Int) :
    dayFromYear (y + 1) = dayFromYear y + (if inLeapYear y then 366 else 365) := by
  unfold dayFromYear inLeapYear
  split_ifs with h <;> simp at h <;> omega

/-- The computed year is the year of ECMA-262 `YearFromTime`: the one whose
first day is at or before `day` and whose successor starts after it. -/
theorem yearFromDay_eq (y day : Int) (h1 : dayFromYear y ≤ day)
    (h2 : day < dayFromYear (y + 1)) : yearFromDay day = y := by
  have b1 := dayFromYear_bounds y
  have b2 := dayFromYear_bounds (y + 1)
  have hy : y = (1970 + (400 * day) / 146097) - 1 ∨ y = 1970 + (400 * day) / 146097 ∨
      y = (1970 + (400 * day) / 146097) + 1 := by omega
  have s0 := dayFromYear_succ (1970 + (400 * day) / 146097 - 1)
  have s1 := dayFromYear_succ (1970 + (400 * day) / 146097)
  have s2 := dayFromYear_succ (1970 + (400 * day) / 146097 + 1)
  unfold yearFromDay
  simp only
  generalize 1970 + (400 * day) / 146097 = e at *
  rcases hy with h | h | h <;> subst h <;> split_ifs at * <;> simp at * <;> omega

theorem parseDateOnly_valid (s : String) (d : CivilDate) (h : parseDateOnly s = some d) :
    1 ≤ d.month ∧ d.month ≤ 12 ∧ 1 ≤ d.day ∧ d.day ≤ daysInMonth d.year d.month := by
  unfold parseDateOnly at h
  split at h
  · split at h
    · dsimp only at h
      split_ifs at h with hc
      simp only [Option.some.injEq] at h
      subst h
      exact hc
    · exact absurd h (by simp)
  · exact absurd h (by simp)

theorem daysBeforeMonth_table (leap : Bool) :
    daysBeforeMonth leap 0 = 0 ∧ daysBeforeMonth leap 1 = 31 ∧
    daysBeforeMonth leap 2 = 59 + (if leap then 1 else 0) ∧
    daysBeforeMonth leap 3 = 90 + (if leap then 1 else 0) ∧
    daysBeforeMonth leap 4 = 120 + (if leap then 1 else 0) ∧
    daysBeforeMonth leap 5 = 151 + (if leap then 1 else 0) ∧
    daysBeforeMonth leap 6 = 181 + (if leap then 1 else 0) ∧
    daysBeforeMonth leap 7 = 212 + (if leap then 1 else 0) ∧
    daysBeforeMonth leap 8 = 243 + (if leap then 1 else 0) ∧
    daysBeforeMonth leap 9 = 273 + (if leap then 1 else 0) ∧
    daysBeforeMonth leap 10 = 304 + (if leap then 1 else 0) ∧
    daysBeforeMonth leap 11 = 334 + (if leap then 1 else 0) ∧
    daysBeforeMonth leap 12 = 365 + (if leap then 1 else 0) := by
  cases leap <;> decide




theorem monthFromDayWithinYear_eq (leap : Bool) (j : Nat) (x : Int) (hj : j ≤ 11)
    (h1 : daysBeforeMonth leap j ≤ x) (h2 : x < daysBeforeMonth leap (j + 1)) :
    monthFromDayWithinYear leap x = j := by
  have hcases : j = 0 ∨ j = 1 ∨ j = 2 ∨ j = 3 ∨ j = 4 ∨ j = 5 ∨ j = 6 ∨ j = 7 ∨ j = 8 ∨
      j = 9 ∨ j = 10 ∨ j = 11 := by omega
  have hl : (0 : Int) ≤ (if leap = true then 1 else 0) ∧
      (if leap = true then (1 : Int) else 0) ≤ 1 := by
    cases leap <;> simp
  obtain ⟨t0, t1, t2, t3, t4, t5, t6, t7, t8, t9, t10, t11, t12⟩ := daysBeforeMonth_table leap
  unfold monthFromDayWithinYear
  rw [t1, t2, t3, t4, t5, t6, t7, t8, t9, t10, t11]
  rcases hcases with h | h | h | h | h | h | h | h | h | h | h | h <;> subst h <;>
    simp only [Nat.reduceAdd, t0, t1, t2, t3, t4, t5, t6, t7, t8, t9, t10, t11, t12]
      at h1 h2 <;>
    clear t0 t1 t2 t3 t4 t5 t6 t7 t8 t9 t10 t11 t12 <;>
    generalize (if leap = true then (1 : Int) else 0) = l at * <;>
    repeat (first | rw [if_pos (by omega)] | rw [if_neg (by omega)])

theorem daysInMonth_eq (leap : Bool) (y m : Nat) (hleap : inLeapYear (y : Int) = leap)
    (h1 : 1 ≤ m) (h2 : m ≤ 12) :
    (daysInMonth y m : Int) = daysBeforeMonth leap m - daysBeforeMonth leap (m - 1) := by
  have hcases : m = 1 ∨ m = 2 ∨ m = 3 ∨ m = 4 ∨ m = 5 ∨ m = 6 ∨ m = 7 ∨ m = 8 ∨
      m = 9 ∨ m = 10 ∨ m = 11 ∨ m = 12 := by omega
  obtain ⟨t0, t1, t2, t3, t4, t5, t6, t7, t8, t9, t10, t11, t12⟩ := daysBeforeMonth_table leap
  unfold daysInMonth
  rw [hleap]
  rcases hcases with h | h | h | h | h | h | h | h | h | h | h | h <;> subst h <;>
    simp only [Nat.reduceSub, t0, t1, t2, t3, t4, t5, t6, t7, t8, t9, t10, t11, t12] <;>
    cases leap <;> simp

theorem daysBeforeMonth_range (leap : Bool) (j : Nat) (hj : j ≤ 11) :
    0 ≤ daysBeforeMonth leap j ∧
      daysBeforeMonth leap (j + 1) ≤ 365 + (if leap then 1 else 0) := by
  have hcases : j = 0 ∨ j = 1 ∨ j = 2 ∨ j = 3 ∨ j = 4 ∨ j = 5 ∨ j = 6 ∨ j = 7 ∨ j = 8 ∨
      j = 9 ∨ j = 10 ∨ j = 11 := by omega
  obtain ⟨t0, t1, t2, t3, t4, t5, t6, t7, t8, t9, t10, t11, t12⟩ := daysBeforeMonth_table leap
  rcases hcases with h | h | h | h | h | h | h | h | h | h | h | h <;> subst h <;>
    simp only [Nat.reduceAdd, t0, t1, t2, t3, t4, t5, t6, t7, t8, t9, t10, t11, t12] <;>
    cases leap <;> simp

/-- The day of a written date within its year lies in the range of its
month. -/
theorem dayWithinYear_bounds (d : CivilDate) (h1 : 1 ≤ d.month) (h2 : d.month ≤ 12)
    (h3 : 1 ≤ d.day) (h4 : d.day ≤ daysInMonth d.year d.month) :
    daysBeforeMonth (inLeapYear d.year) (d.month - 1) ≤ makeDay d - dayFromYear d.year ∧
      makeDay d - dayFromYear d.year < daysBeforeMonth (inLeapYear d.year) (d.month - 1 + 1) := by
  have hm : d.month - 1 + 1 = d.month := by omega
  have hdim := daysInMonth_eq (inLeapYear d.year) d.year d.month rfl h1 h2
  rw [hm]
  unfold makeDay
  omega

theorem makeDay_bounds (d : CivilDate) (h1 : 1 ≤ d.month) (h2 : d.month ≤ 12) (h3 : 1 ≤ d.day)
    (h4 : d.day ≤ daysInMonth d.year d.month) :
    dayFromYear d.year ≤ makeDay d ∧ makeDay d < dayFromYear (d.year + 1) := by
  have hb := dayWithinYear_bounds d h1 h2 h3 h4
  have hr := daysBeforeMonth_range (inLeapYear d.year) (d.month - 1) (by omega)
  rw [dayFromYear_succ]
  cases hl : inLeapYear (d.year : Int) <;> simp only [hl] at hb hr <;> simp at hr ⊢ <;> omega

theorem month_of_makeDay (d : CivilDate) (h1 : 1 ≤ d.month) (h2 : d.month ≤ 12) (h3 : 1 ≤ d.day)
    (h4 : d.day ≤ daysInMonth d.year d.month) :
    monthFromDayWithinYear (inLeapYear d.year) (makeDay d - dayFromYear d.year) = d.month - 1 :=
  monthFromDayWithinYear_eq (inLeapYear d.year) (d.month - 1) _ (by omega)
    (dayWithinYear_bounds d h1 h2 h3 h4).1 (dayWithinYear_bounds d h1 h2 h3 h4).2

theorem localDay_of_midnight (env : Env) (day : Int)
    (h1 : 0 ≤ env.localTZA (day * msPerDay)) (h2 : env.localTZA (day * msPerDay) < msPerDay) :
    localDay env (day * msPerDay) = day := by
  unfold localDay
  unfold msPerDay at *
  omega

/-- In a time zone at or east of UTC the local year and month of the UTC
midnight of a written date are the written year and month. -/
theorem local_fields_of_written_date (env : Env) (s : String) (d : CivilDate)
    (hp : parseDateOnly s = some d)
    (h1 : 0 ≤ env.localTZA (makeDay d * msPerDay))
    (h2 : env.localTZA (makeDay d * msPerDay) < msPerDay) :
    dateValue s = some (makeDay d * msPerDay) ∧
      getFullYear env (makeDay d * msPerDay) = d.year ∧
      getMonth env (makeDay d * msPerDay) = (d.month : Int) - 1 := by
  obtain ⟨v1, v2, v3, v4⟩ := parseDateOnly_valid s d hp
  have hb := makeDay_bounds d v1 v2 v3 v4
  have hy : yearFromDay (makeDay d) = d.year := yearFromDay_eq d.year (makeDay d) hb.1 hb.2
  refine ⟨by simp [dateValue, hp], ?_, ?_⟩
  · simp [getFullYear, localDay_of_midnight env (makeDay d) h1 h2, hy]
  · simp only [getMonth, localDay_of_midnight env (makeDay d) h1 h2, hy]
    rw [month_of_makeDay d v1 v2 v3 v4]
    omega

/-- In a time zone at or east of UTC (offset below one day) the `monthDiff`
of the validation is the span of the written years and months, and the
daily-consumption check rejects exactly the spans of two months or more;
other report types have no span check. -/
theorem span_check_east_of_utc (env : Env) (form : Form) (start finish : CivilDate)
    (hs : parseDateOnly form.startDate = some start)
    (hf : parseDateOnly form.endDate = some finish)
    (hs1 : 0 ≤ env.localTZA (makeDay start * msPerDay))
    (hs2 : env.localTZA (makeDay start * msPerDay) < msPerDay)
    (hf1 : 0 ≤ env.localTZA (makeDay finish * msPerDay))
    (hf2 : env.localTZA (makeDay finish * msPerDay) < msPerDay)
    (hord : startAfterEnd form.startDate form.endDate = false) :
    monthDiff env form.startDate form.endDate = some (writtenMonthSpan start finish) ∧
      (form.reportType = "daily_consumption" →
        (validate env form = some msgSpan ↔ 2 ≤ writtenMonthSpan start finish)) ∧
      (form.reportType ≠ "daily_consumption" → validate env form ≠ some msgSpan) := by
  obtain ⟨a1, a2, a3⟩ := local_fields_of_written_date env form.startDate start hs hs1 hs2
  obtain ⟨b1, b2, b3⟩ := local_fields_of_written_date env form.endDate finish hf hf1 hf2
  have hmd : monthDiff env form.startDate form.endDate = some (writtenMonthSpan start finish) := by
    simp only [monthDiff, a1, b1, a2, a3, b2, b3, writtenMonthSpan]
    congr 1
    omega
  have hne1 : form.startDate ≠ "" := by
    intro h
    rw [h] at hs
    have : parseDateOnly "" = none := by decide
    rw [this] at hs
    exact absurd hs (by simp)
  have hne2 : form.endDate ≠ "" := by
    intro h
    rw [h] at hf
    have : parseDateOnly "" = none := by decide
    rw [this] at hf
    exact absurd hf (by simp)
  refine ⟨hmd, ?_, ?_⟩
  · intro hrt
    have hrt2 : form.reportType ≠ "" := by
      rw [hrt]
      decide
    by_cases h2 : 2 ≤ writtenMonthSpan start finish
    · simp [validate, hrt, hne1, hne2, hord, monthDiffAtLeastTwo, hmd, h2]
    · have hmsg : msgDevices ≠ msgSpan := by decide
      simp only [validate, hrt, hne1, hne2, hord, monthDiffAtLeastTwo, hmd, h2]
      simp
      intro _
      exact hmsg
  · intro hrt
    have m1 : msgReportType ≠ msgSpan := by decide
    have m2 : msgDates ≠ msgSpan := by decide
    have m3 : msgDateOrder ≠ msgSpan := by decide
    have m5 : msgDevices ≠ msgSpan := by decide
    unfold validate
    simp only [hrt, false_and, if_false]
    split_ifs <;> simp [m1, m2, m3, m5]

/-- C2 (code at the failing input): in a browser at UTC-5 the dates
2024-01-01 .. 2024-02-15, whose written month span is 1, are rejected with
the span-limit message, because the local month of the UTC midnight of
2024-01-01 is December 2023; and 2024-01-31 .. 2024-03-01, whose written
month span is 2, pass the check. -/
theorem span_check_west_of_utc :
    parseDateOnly "2024-01-01" = some { year := 2024, month := 1, day := 1 } ∧
    parseDateOnly "2024-02-15" = some { year := 2024, month := 2, day := 15 } ∧
    writtenMonthSpan { year := 2024, month := 1, day := 1 }
      { year := 2024, month := 2, day := 15 } = 1 ∧
    (dateValue "2024-01-01").map (fun t => (getFullYear envNewYork t, getMonth envNewYork t)) =
      some (2023, 11) ∧
    monthDiff envNewYork "2024-01-01" "2024-02-15" = some 2 ∧
    handleGenerateReport envNewYork (dailyForm "2024-01-01" "2024-02-15") FetchOutcome.pending =
      [Effect.setStatus "每日消耗误差报表查询日期跨度不能超过两个月。" true] ∧
    writtenMonthSpan { year := 2024, month := 1, day := 31 }
      { year := 2024, month := 3, day := 1 } = 2 ∧
    monthDiff envNewYork "2024-01-31" "2024-03-01" = some 1 ∧
    validate envNewYork (dailyForm "2024-01-31" "2024-03-01") = none := by
  decide

theorem span_check_east_of_utc_witness :
    monthDiff envShanghai "2024-01-01" "2024-03-02" = some 2 ∧
      validate envShanghai (dailyForm "2024-01-01" "2024-03-02") = some msgSpan :=
  have h := span_check_east_of_utc envShanghai (dailyForm "2024-01-01" "2024-03-02")
    { year := 2024, month := 1, day := 1 } { year := 2024, month := 3, day := 2 }
    (by decide) (by decide) (by decide) (by decide) (by decide) (by decide) (by decide)
  ⟨h.1, (h.2.1 rfl).mpr (by decide)⟩

theorem dayFromYear_mono (a b : Int) (h : a ≤ b) : dayFromYear a ≤ dayFromYear b := by
  unfold dayFromYear
  omega

theorem daysBeforeMonth_step (leap : Bool) (j : Nat) (hj : j ≤ 11) :
    daysBeforeMonth leap j ≤ daysBeforeMonth leap (j + 1) := by
  have hcases : j = 0 ∨ j = 1 ∨ j = 2 ∨ j = 3 ∨ j = 4 ∨ j = 5 ∨ j = 6 ∨ j = 7 ∨ j = 8 ∨
      j = 9 ∨ j = 10 ∨ j = 11 := by omega
  obtain ⟨t0, t1, t2, t3, t4, t5, t6, t7, t8, t9, t10, t11, t12⟩ := daysBeforeMonth_table leap
  rcases hcases with h | h | h | h | h | h | h | h | h | h | h | h <;> subst h <;>
    simp only [Nat.reduceAdd, t0, t1, t2, t3, t4, t5, t6, t7, t8, t9, t10, t11, t12] <;>
    cases leap <;> simp

theorem daysBeforeMonth_mono (leap : Bool) (j k : Nat) (hjk : j ≤ k) (hk : k ≤ 12) :
    daysBeforeMonth leap j ≤ daysBeforeMonth leap k := by
  induction k, hjk using Nat.le_induction with
  | base => exact le_refl _
  | succ n hn ih =>
    exact le_trans (ih (by omega)) (daysBeforeMonth_step leap n (by omega))

/-- A written date that is strictly after another has the later day
number. -/
theorem makeDay_lt_of_writtenAfter (a b : CivilDate)
    (a1 : 1 ≤ a.month) (a2 : a.month ≤ 12) (a3 : 1 ≤ a.day)
    (a4 : a.day ≤ daysInMonth a.year a.month)
    (b1 : 1 ≤ b.month) (b2 : b.month ≤ 12) (b3 : 1 ≤ b.day)
    (b4 : b.day ≤ daysInMonth b.year b.month)
    (h : writtenAfter a b = true) : makeDay b < makeDay a := by
  have ha := makeDay_bounds a a1 a2 a3 a4
  have hb := makeDay_bounds b b1 b2 b3 b4
  have wa := dayWithinYear_bounds a a1 a2 a3 a4
  have wb := dayWithinYear_bounds b b1 b2 b3 b4
  simp only [writtenAfter, decide_eq_true_eq] at h
  rcases h with hy | ⟨hy, hm | ⟨hm, hd⟩⟩
  · have := dayFromYear_mono ((b.year : Int) + 1) a.year (by omega)
    omega
  · rw [hy] at wb
    have hmono := daysBeforeMonth_mono (inLeapYear a.year) (b.month - 1 + 1) (a.month - 1)
      (by omega) (by omega)
    rw [hy] at hb
    omega
  · unfold makeDay
    rw [hy, hm]
    omega

/-- On written calendar dates the comparison of the two time values is the
order of the dates. -/
theorem startAfterEnd_eq (startDate endDate : String) :
    startAfterEnd startDate endDate = startIsAfterEnd startDate endDate := by
  unfold startAfterEnd startIsAfterEnd dateValue
  cases hs : parseDateOnly startDate with
  | none => simp
  | some a =>
    cases he : parseDateOnly endDate with
    | none => simp
    | some b =>
      obtain ⟨a1, a2, a3, a4⟩ := parseDateOnly_valid startDate a hs
      obtain ⟨b1, b2, b3, b4⟩ := parseDateOnly_valid endDate b he
      simp only [Option.map_some']
      cases hw : writtenAfter a b with
      | true =>
        have := makeDay_lt_of_writtenAfter a b a1 a2 a3 a4 b1 b2 b3 b4 hw
        simp only [decide_eq_true_eq]
        unfold msPerDay
        omega
      | false =>
        simp only [decide_eq_false_iff_not]
        by_cases hw2 : writtenAfter b a = true
        · have := makeDay_lt_of_writtenAfter b a b1 b2 b3 b4 a1 a2 a3 a4 hw2
          unfold msPerDay
          omega
        · have heq : a = b := by
            simp only [writtenAfter, decide_eq_true_eq, decide_eq_false_iff_not] at hw hw2
            obtain ⟨ya, ma, da⟩ := a
            obtain ⟨yb, mb, db⟩ := b
            simp only at hw hw2
            simp only [CivilDate.mk.injEq]
            omega
          rw [heq]
          omega

/-- In a time zone at or east of UTC the month-span test of the code is
the one of the contract. -/
theorem monthDiffAtLeastTwo_eq (env : Env) (startDate endDate : String)
    (htz : ∀ t, 0 ≤ env.localTZA t ∧ env.localTZA t < msPerDay) :
    monthDiffAtLeastTwo env startDate endDate = spanIsTwoOrMore startDate endDate := by
  unfold monthDiffAtLeastTwo spanIsTwoOrMore
  cases hs : parseDateOnly startDate with
  | none => simp [monthDiff, dateValue, hs]
  | some a =>
    cases he : parseDateOnly endDate with
    | none => simp [monthDiff, dateValue, hs, he]
    | some b =>
      obtain ⟨a1, a2, a3⟩ := local_fields_of_written_date env startDate a hs (htz _).1 (htz _).2
      obtain ⟨b1, b2, b3⟩ := local_fields_of_written_date env endDate b he (htz _).1 (htz _).2
      have hmd : monthDiff env startDate endDate = some (writtenMonthSpan a b) := by
        simp only [monthDiff, a1, b1, a2, a3, b2, b3, writtenMonthSpan]
        congr 1
        omega
      simp [hmd]

/-- In a time zone at or east of UTC the validation of the code gives the
first failing check of the contract's ordered list, and passes when none
fails. -/
theorem validate_eq_firstFailure (env : Env) (form : Form)
    (htz : ∀ t, 0 ≤ env.localTZA t ∧ env.localTZA t < msPerDay) :
    validate env form = firstFailure form := by
  have h3e := startAfterEnd_eq form.startDate form.endDate
  have h4e := monthDiffAtLeastTwo_eq env form.startDate form.endDate htz
  unfold validate firstFailure orderedChecks
  rw [h3e, h4e]
  by_cases h1 : form.reportType = ""
  · simp [h1]
  · by_cases h2 : form.startDate = "" ∨ form.endDate = ""
    · simp [h1, h2]
    · by_cases h3 : startIsAfterEnd form.startDate form.endDate = true
      · simp [h1, h2, h3]
      · by_cases h4 : form.reportType = "daily_consumption" ∧
            spanIsTwoOrMore form.startDate form.endDate = true
        · simp [h1, h2, h3, h4]
        · have hb : (decide (form.reportType = "daily_consumption") &&
              spanIsTwoOrMore form.startDate form.endDate) = false := by
            rcases Bool.eq_false_or_eq_true
              (decide (form.reportType = "daily_consumption") &&
                spanIsTwoOrMore form.startDate form.endDate) with hb | hb
            · exfalso
              apply h4
              simpa using hb
            · exact hb
          by_cases h5 : (checkedCheckboxes form.deviceList).length = 0
          · simp only [h1, h2, h3, h4, h5, if_false, if_true]
            simp [List.find?, h1, h2, h3, h5, hb]
          · simp only [h1, h2, h3, h4, h5, if_false]
            simp [List.find?, h1, h2, h3, h5, hb]

/-- In a browser at or east of UTC, for every form whose date fields are
empty or hold a `YYYY-MM-DD` date: when a check of the contract's ordered
list fails, `handleGenerateReport` reports exactly the message of the
first failing one and issues no request; when none fails the request is
issued. -/
theorem validation_order_east_of_utc (env : Env) (form : Form) (net : FetchOutcome)
    (htz : ∀ t, 0 ≤ env.localTZA t ∧ env.localTZA t < msPerDay)
    (_hs : isDateFieldValue form.startDate) (_he : isDateFieldValue form.endDate) :
    (∀ message, firstFailure form = some message →
      handleGenerateReport env form net = [Effect.setStatus message true] ∧
      (handleGenerateReport env form net).any isFetch = false) ∧
    (firstFailure form = none →
      (handleGenerateReport env form net).any isFetch = true) := by
  have hv := validate_eq_firstFailure env form htz
  constructor
  · intro message hm
    rw [← hv] at hm
    simp [handleGenerateReport, hm, isFetch]
  · intro hm
    rw [← hv] at hm
    simp [handleGenerateReport, hm, isFetch]

theorem validation_order_east_of_utc_witness :
    (∀ message, firstFailure formShortSpanNoDevice = some message →
      handleGenerateReport envShanghai formShortSpanNoDevice FetchOutcome.pending =
        [Effect.setStatus message true] ∧
      (handleGenerateReport envShanghai formShortSpanNoDevice FetchOutcome.pending).any
        isFetch = false) ∧
    (firstFailure formShortSpanNoDevice = none →
      (handleGenerateReport envShanghai formShortSpanNoDevice FetchOutcome.pending).any
        isFetch = true) :=
  validation_order_east_of_utc envShanghai formShortSpanNoDevice FetchOutcome.pending
    (fun _ => ⟨(by decide : (0 : Int) ≤ 8 * 3600000), (by decide : (8 * 3600000 : Int) < 86400000)⟩)
    (Or.inr (by decide)) (Or.inr (by decide))

/-- The two examples of the validation order hold in every browser: an
empty report type gives "请选择报表类型。" whatever the other fields, and
2024-03-01 .. 2024-01-01 gives the date-order message whatever the device
selection. -/
theorem validation_order_examples (env : Env) (form : Form) (net : FetchOutcome) :
    (form.reportType = "" →
      handleGenerateReport env form net = [Effect.setStatus "请选择报表类型。" true]) ∧
    (form.reportType ≠ "" → form.startDate = "2024-03-01" → form.endDate = "2024-01-01" →
      handleGenerateReport env form net = [Effect.setStatus "开始日期不能晚于结束日期。" true]) := by
  refine ⟨?_, ?_⟩
  · intro h
    simp [handleGenerateReport, validate, h, msgReportType]
  · intro h1 h2 h3
    have h : startAfterEnd "2024-03-01" "2024-01-01" = true := by decide
    simp [handleGenerateReport, validate, h1, h2, h3, h, msgDateOrder]

/-- C1 (code at the failing input): in a browser at UTC-5, for the
daily-consumption form 2024-01-01 .. 2024-02-15 with no device checked the
first failing check of the ordered list is (5), at least one device, since
the written month span is 1, but the handler reports the span-limit
message of check (4); and for 2024-01-31 .. 2024-03-01 with a device
checked the first failing check is (4), written span 2, but the handler
reports nothing and issues the request. -/
theorem validation_order_west_of_utc :
    firstFailure formShortSpanNoDevice = some "请至少选择一个设备。" ∧
    handleGenerateReport envNewYork formShortSpanNoDevice FetchOutcome.pending =
      [Effect.setStatus "每日消耗误差报表查询日期跨度不能超过两个月。" true] ∧
    firstFailure (dailyForm "2024-01-31" "2024-03-01") =
      some "每日消耗误差报表查询日期跨度不能超过两个月。" ∧
    handleGenerateReport envNewYork (dailyForm "2024-01-31" "2024-03-01")
        FetchOutcome.pending =
      [Effect.setDisabled true, Effect.setStatus "正在生成报表，请稍候..." false,
        Effect.fetchGenerate
          { report_type := "daily_consumption", devices := ["D001"],
            start_date := "2024-01-31", end_date := "2024-03-01" }] := by
  decide

theorem matchHere_literal (lits : List Char) (rest : List Atom) (cap s : List Char) :
    matchHere (lits.map Atom.lit ++ rest) cap s =
      (litMatch lits s).bind (fun s1 => matchHere rest cap s1) := by
  induction lits generalizing s with
  | nil => simp [litMatch]
  | cons c cs ih =>
    cases s with
    | nil => simp [matchHere, litMatch]
    | cons x xs =>
      by_cases h : ciEq x c = true
      · simp [matchHere, litMatch, h, ih]
      · simp [matchHere, litMatch, h]

/-- A literal cannot match across the end of a run `a` shorter than it when
the character after the run matches none of the literal's characters. -/
theorem litMatch_straddle (lits a : List Char) (c : Char) (t : List Char)
    (hc : ∀ p ∈ lits, ciEq c p = false) (hlen : a.length < lits.length) :
    litMatch lits (a ++ c :: t) = none := by
  induction lits generalizing a with
  | nil => simp at hlen
  | cons p ps ih =>
    cases a with
    | nil => simp [litMatch, hc p (by simp)]
    | cons x xs =>
      by_cases h : ciEq x p = true
      · simp only [List.cons_append, litMatch, h, if_true]
        exact ih xs (fun q hq => hc q (by simp [hq])) (by simpa using hlen)
      · simp [litMatch, h]


theorem occursCI_suffix (lits b a : List Char) (h : occursCI lits (b ++ a) = false) :
    litMatch lits a = none := by
  induction b with
  | nil =>
    cases a with
    | nil => simpa [occursCI] using h
    | cons x xs =>
      simp only [List.nil_append, occursCI, Bool.or_eq_false_iff] at h
      simpa using h.1
  | cons y ys ih =>
    simp only [List.cons_append, occursCI, Bool.or_eq_false_iff] at h
    exact ih h.2

theorem litMatch_none_append (lits a t : List Char) (h : litMatch lits a = none)
    (hlen : lits.length ≤ a.length) : litMatch lits (a ++ t) = none := by
  induction lits generalizing a with
  | nil => simp [litMatch] at h
  | cons p ps ih =>
    cases a with
    | nil => simp at hlen
    | cons x xs =>
      by_cases hx : ciEq x p = true
      · simp only [litMatch, hx, if_true] at h
        simp only [List.cons_append, litMatch, hx, if_true]
        exact ih xs h (by simpa using hlen)
      · simp [litMatch, hx]

/-- No match of a literal `first :: tail` starts inside a run `a` in which
the literal does not match, when the run is followed by a character `c`
that matches none of `tail`. -/
theorem litMatch_before (first : Char) (tail a t : List Char) (c : Char)
    (htail : ∀ p ∈ tail, ciEq c p = false)
    (ha : litMatch (first :: tail) a = none) (hne : a ≠ []) :
    litMatch (first :: tail) (a ++ c :: t) = none := by
  by_cases hlen : (first :: tail).length ≤ a.length
  · exact litMatch_none_append (first :: tail) a (c :: t) ha hlen
  · cases a with
    | nil => exact absurd rfl hne
    | cons x xs =>
      by_cases h : ciEq x first = true
      · simp only [List.cons_append, litMatch, h, if_true]
        apply litMatch_straddle tail xs c t htail
        simp at hlen
        omega
      · simp [litMatch, h]

theorem regexMatch_skip (pattern : List Atom) (pre s : List Char)
    (h : ∀ a b, a ≠ [] → pre = b ++ a → matchHere pattern [] (a ++ s) = none) :
    regexMatch pattern (pre ++ s) = regexMatch pattern s := by
  induction pre with
  | nil => rfl
  | cons x xs ih =>
    have h0 : matchHere pattern [] (x :: (xs ++ s)) = none :=
      h (x :: xs) [] (by simp) rfl
    have ih1 : regexMatch pattern (xs ++ s) = regexMatch pattern s :=
      ih (fun a b ha hb => h a (x :: b) ha (by simp [hb]))
    simp [regexMatch, h0, ih1]

theorem regexMatch_here (pattern : List Atom) (s v : List Char)
    (h : matchHere pattern [] s = some v) : regexMatch pattern s = some v := by
  cases s with
  | nil => simpa [regexMatch] using h
  | cons x xs => simp [regexMatch, h]

theorem regexMatch_none (pattern : List Atom) (s : List Char)
    (h : ∀ a b, s = b ++ a → matchHere pattern [] a = none) : regexMatch pattern s = none := by
  induction s with
  | nil => simpa [regexMatch] using h [] [] rfl
  | cons x xs ih =>
    have h0 := h (x :: xs) [] rfl
    have ih1 := ih (fun a b hb => h a (x :: b) (by simp [hb]))
    simp [regexMatch, h0, ih1]

/-- The greedy capture takes a whole value run when the rest of the
pattern then succeeds. -/
theorem captureThen_run (set : Char → Bool) (k : List Char → List Char → Option (List Char))
    (xs acc post r : List Char) (hxs : ∀ c ∈ xs, set c = true)
    (hpost : ∀ c, post.head? = some c → set c = false)
    (hk : k (acc.reverse ++ xs) post = some r) :
    captureThen set k acc (xs ++ post) = some r := by
  induction xs generalizing acc with
  | nil =>
    cases post with
    | nil => simpa [captureThen] using hk
    | cons c ps =>
      have hc : set c = false := hpost c rfl
      simpa [captureThen, hc] using hk
  | cons x xs ih =>
    have hx : set x = true := hxs x (by simp)
    have := ih (x :: acc) (fun c hc => hxs c (by simp [hc])) (by simpa using hk)
    simp [captureThen, hx, this]

theorem isValueChar_not_space (c : Char) (h : isValueChar c = true) : isJsSpace c = false := by
  unfold isValueChar at h
  cases hs : isJsSpace c
  · rfl
  · simp [hs] at h

theorem isValueChar_not_dquote (c : Char) (h : isValueChar c = true) : c ≠ '"' := by
  intro hc
  subst hc
  simp [isValueChar] at h

theorem utf8Pattern_eq :
    utf8Pattern = ("filename*=".data).map Atom.lit ++
      (Atom.opt isQuote :: (("utf-8".data).map Atom.lit ++
        [Atom.opt isQuote, Atom.star isAposOrSpace, Atom.capturePlus isValueChar])) := by
  simp [utf8Pattern, literal]

theorem filenamePattern_eq :
    filenamePattern = ("filename=".data).map Atom.lit ++
      [Atom.opt isQuote, Atom.capturePlus isValueChar, Atom.opt isQuote] := by
  simp [filenamePattern, literal]

theorem litMatch_append (lits w r t : List Char) (h : litMatch lits w = some r) :
    litMatch lits (w ++ t) = some (r ++ t) := by
  induction lits generalizing w with
  | nil =>
    simp only [litMatch, Option.some.injEq] at h
    simp [litMatch, h]
  | cons p ps ih =>
    cases w with
    | nil => simp [litMatch] at h
    | cons x xs =>
      by_cases hx : ciEq x p = true
      · simp only [litMatch, hx, if_true] at h
        simpa [litMatch, hx] using ih xs h
      · simp [litMatch, hx] at h

theorem matchHere_opt_skip (set : Char → Bool) (rest : List Atom) (cap xs : List Char)
    (x : Char) (hx : set x = false) :
    matchHere (Atom.opt set :: rest) cap (x :: xs) = matchHere rest cap (x :: xs) := by
  simp [matchHere, hx]

theorem matchHere_opt_take (set : Char → Bool) (rest : List Atom) (cap xs r : List Char)
    (x : Char) (hx : set x = true) (h : matchHere rest cap xs = some r) :
    matchHere (Atom.opt set :: rest) cap (x :: xs) = some r := by
  simp [matchHere, hx, h]

theorem matchHere_capture (set : Char → Bool) (rest : List Atom) (cap xs : List Char)
    (x : Char) (hx : set x = true) :
    matchHere (Atom.capturePlus set :: rest) cap (x :: xs) =
      captureThen set (fun c s1 => matchHere rest c s1) [x] xs := by
  rw [matchHere]
  simp only [hx, if_true]

theorem matchHere_star (set : Char → Bool) (rest : List Atom) (cap s : List Char) :
    matchHere (Atom.star set :: rest) cap s =
      starThen set (fun s1 => matchHere rest cap s1) s := by
  rw [matchHere]

theorem starThen_stop (set : Char → Bool) (k : List Char → Option (List Char)) (x : Char)
    (xs : List Char) (hx : set x = false) : starThen set k (x :: xs) = k (x :: xs) := by
  simp [starThen, hx]

theorem starThen_take (set : Char → Bool) (k : List Char → Option (List Char)) (x : Char)
    (xs r : List Char) (hx : set x = true) (h : starThen set k xs = some r) :
    starThen set k (x :: xs) = some r := by
  simp [starThen, hx, h]

/-- At an extended parameter `filename*=UTF-8''v` the first pattern
captures the whole value run `v`. -/
theorem matchHere_utf8Pattern (v post : List Char) (hv : isValueRun v)
    (hapos : v.head? ≠ some '\'') (hpost : endsValue post) :
    matchHere utf8Pattern [] ("filename*=UTF-8''".data ++ (v ++ post)) = some v := by
  obtain ⟨hne, hall⟩ := hv
  cases v with
  | nil => exact absurd rfl hne
  | cons x xs =>
    have hx : isValueChar x = true := hall x (by simp)
    have hxs : isJsSpace x = false := isValueChar_not_space x hx
    have hxa : x ≠ '\'' := fun e => hapos (by simp [e])
    have hxq : isAposOrSpace x = false := by simp [isAposOrSpace, hxs, hxa]
    have hcap : captureThen isValueChar (fun c s1 => matchHere [] c s1) [x] (xs ++ post) =
        some (x :: xs) :=
      captureThen_run isValueChar _ xs [x] post (x :: xs) (fun c hc => hall c (by simp [hc]))
        hpost (by simp [matchHere])
    have h1 : litMatch "filename*=".data ("filename*=UTF-8''".data ++ (x :: xs ++ post)) =
        some ("UTF-8''".data ++ (x :: xs ++ post)) :=
      litMatch_append _ _ _ _ (by decide)
    have h2 : litMatch "utf-8".data ("UTF-8''".data ++ (x :: xs ++ post)) =
        some ("''".data ++ (x :: xs ++ post)) :=
      litMatch_append _ _ _ _ (by decide)
    have e1 : "UTF-8''".data ++ (x :: xs ++ post) =
        'U' :: ("TF-8''".data ++ (x :: xs ++ post)) := rfl
    have e2 : "''".data ++ (x :: xs ++ post) = '\'' :: '\'' :: (x :: xs ++ post) := rfl
    have q1 : isQuote 'U' = false := by decide
    have q2 : isQuote '\'' = true := by decide
    have q3 : isAposOrSpace '\'' = true := by decide
    have hstar : matchHere [Atom.star isAposOrSpace, Atom.capturePlus isValueChar] []
        ('\'' :: (x :: xs ++ post)) = some (x :: xs) := by
      rw [matchHere_star]
      apply starThen_take _ _ _ _ _ q3
      rw [List.cons_append, starThen_stop _ _ _ _ hxq, matchHere_capture _ _ _ _ _ hx]
      exact hcap
    rw [utf8Pattern_eq, matchHere_literal, h1]
    simp only [Option.bind]
    rw [e1, matchHere_opt_skip _ _ _ _ _ q1, ← e1, matchHere_literal, h2]
    simp only [Option.bind]
    rw [e2]
    exact matchHere_opt_take _ _ _ _ _ _ q2 hstar

/-- At a plain parameter `filename=v` or `filename="v` the second pattern
captures the whole value run `v`. -/
theorem matchHere_filenamePattern (q v post : List Char) (hv : isValueRun v)
    (hq : (q = [] ∧ v.head? ≠ some '\'') ∨ q = ['"']) (hpost : endsValue post) :
    matchHere filenamePattern [] ("filename=".data ++ (q ++ (v ++ post))) = some v := by
  obtain ⟨hne, hall⟩ := hv
  cases v with
  | nil => exact absurd rfl hne
  | cons x xs =>
    have hx : isValueChar x = true := hall x (by simp)
    have hopt : ∀ c s, matchHere [Atom.opt isQuote] c s = some c := by
      intro c s
      cases s with
      | nil => simp [matchHere]
      | cons y ys => by_cases hy : isQuote y = true <;> simp [matchHere, hy]
    have hcap : captureThen isValueChar (fun c s1 => matchHere [Atom.opt isQuote] c s1) [x]
        (xs ++ post) = some (x :: xs) :=
      captureThen_run isValueChar _ xs [x] post (x :: xs) (fun c hc => hall c (by simp [hc]))
        hpost (by simp [hopt])
    have h1 : litMatch "filename=".data ("filename=".data ++ (q ++ (x :: xs ++ post))) =
        some ([] ++ (q ++ (x :: xs ++ post))) :=
      litMatch_append _ _ _ _ (by decide)
    rw [filenamePattern_eq, matchHere_literal, h1]
    simp only [Option.bind, List.nil_append]
    rcases hq with ⟨hq, hapos⟩ | hq
    · subst hq
      have hxa : x ≠ '\'' := fun e => hapos (by simp [e])
      have hxd : x ≠ '"' := isValueChar_not_dquote x hx
      have hxq : isQuote x = false := by simp [isQuote, hxa, hxd]
      rw [List.nil_append, List.cons_append, matchHere_opt_skip _ _ _ _ _ hxq,
        matchHere_capture _ _ _ _ _ hx]
      exact hcap
    · subst hq
      have q2 : isQuote '"' = true := by decide
      rw [List.singleton_append]
      apply matchHere_opt_take _ _ _ _ _ _ q2
      rw [List.cons_append, matchHere_capture _ _ _ _ _ hx]
      exact hcap

theorem includes_append (needle pre t : List Char) :
    includes needle (pre ++ (needle ++ t)) = true := by
  induction pre with
  | nil =>
    cases h : needle ++ t with
    | nil =>
      have : needle = [] := (List.append_eq_nil.mp h).1
      simp [includes, this]
    | cons x xs =>
      have hp : needle.isPrefixOf (x :: xs) = true := by
        rw [← h, List.isPrefixOf_iff_prefix]
        exact List.prefix_append needle t
      simp [includes, hp]
  | cons x xs ih => simp [includes, ih]

/-- The first pattern finds the extended parameter at the first
occurrence of `filename*=`. -/
theorem regexMatch_utf8Pattern (pre v post : List Char)
    (hpre : occursCI "filename*=".data pre = false)
    (hv : isValueRun v) (hapos : v.head? ≠ some '\'') (hpost : endsValue post) :
    regexMatch utf8Pattern (pre ++ ("filename*=UTF-8''".data ++ (v ++ post))) = some v := by
  rw [regexMatch_skip]
  · exact regexMatch_here _ _ _ (matchHere_utf8Pattern v post hv hapos hpost)
  · intro a b ha hb
    rw [utf8Pattern_eq, matchHere_literal]
    have hlit : litMatch "filename*=".data
        (a ++ 'f' :: ("ilename*=UTF-8''".data ++ (v ++ post))) = none := by
      apply litMatch_before 'f' "ilename*=".data a _ 'f' (by decide)
      · exact occursCI_suffix _ b a (by rw [← hb]; exact hpre)
      · exact ha
    have e : "filename*=UTF-8''".data ++ (v ++ post) =
        'f' :: ("ilename*=UTF-8''".data ++ (v ++ post)) := rfl
    rw [e, hlit]
    rfl

/-- The second pattern finds the plain parameter at the first occurrence
of `filename=`. -/
theorem regexMatch_filenamePattern (pre q v post : List Char)
    (hpre : occursCI "filename=".data pre = false)
    (hv : isValueRun v) (hq : (q = [] ∧ v.head? ≠ some '\'') ∨ q = ['"'])
    (hpost : endsValue post) :
    regexMatch filenamePattern (pre ++ ("filename=".data ++ (q ++ (v ++ post)))) = some v := by
  rw [regexMatch_skip]
  · exact regexMatch_here _ _ _ (matchHere_filenamePattern q v post hv hq hpost)
  · intro a b ha hb
    rw [filenamePattern_eq, matchHere_literal]
    have hlit : litMatch "filename=".data
        (a ++ 'f' :: ("ilename=".data ++ (q ++ (v ++ post)))) = none := by
      apply litMatch_before 'f' "ilename=".data a _ 'f' (by decide)
      · exact occursCI_suffix _ b a (by rw [← hb]; exact hpre)
      · exact ha
    have e : "filename=".data ++ (q ++ (v ++ post)) =
        'f' :: ("ilename=".data ++ (q ++ (v ++ post))) := rfl
    rw [e, hlit]
    rfl

/-- Without an occurrence of `filename=` the second pattern has no match. -/
theorem regexMatch_filenamePattern_none (s : List Char)
    (hs : occursCI "filename=".data s = false) :
    regexMatch filenamePattern s = none := by
  apply regexMatch_none
  intro a b hab
  rw [filenamePattern_eq, matchHere_literal,
    occursCI_suffix _ b a (by rw [← hab]; exact hs)]
  rfl

/-- C4 (code at the failing input): the header
`attachment; filename="my report.xlsx"` has one plain quoted parameter
whose value is `my report.xlsx`, with no percent-escape in it, so the
contract gives "my report.xlsx"; the second pattern stops at the space and
the resolved filename is "my". -/
theorem quoted_value_with_space_is_cut :
    "attachment; filename=\"my report.xlsx\"" =
        "attachment; " ++ "filename=" ++ "\"" ++ "my report.xlsx" ++ "\"" ∧
      decodeURIComponent "my report.xlsx".data = some "my report.xlsx".data ∧
      contractFilename "attachment; filename=\"my report.xlsx\"" = some "my report.xlsx" ∧
      resolveFilename envShanghai "attachment; filename=\"my report.xlsx\"" = Except.ok "my" ∧
      resolveFilename envShanghai "attachment; filename=\"my report.xlsx\"" ≠
        Except.ok "my report.xlsx" := by
  refine ⟨by decide, by decide, by decide, rfl, ?_⟩
  intro h
  have h2 : resolveFilename envShanghai "attachment; filename=\"my report.xlsx\"" =
      Except.ok "my" := rfl
  rw [h2] at h
  exact absurd (Except.ok.inj h) (by decide)

/-- Where the code resolves the filename as the contract states it. A
value run is a non-empty run of characters other than `;`, white space and
`"`, followed by the end of the header or one of those characters.
(1) When the first occurrence of `filename*=` is the parameter
`filename*=UTF-8''v`, with `v` a value run that does not start with an
apostrophe, the resolved filename is the percent-decoding of `v` when that
decoding succeeds, whatever else the header holds (a plain `filename=`
before or after it too). (2) In a header without the text `filename*=`,
when the first occurrence of `filename=` is the parameter `filename=v` or
`filename="v` with `v` a value run (a bare one not starting with an
apostrophe), it is the percent-decoding of `v` when that succeeds. (3) For
a header in which neither `filename*=` nor `filename=` occurs it is
"report.zip". -/
theorem resolveFilename_value_runs (env : Env) :
    (∀ pre v post name : String,
      occursCI "filename*=".data pre.data = false → isValueRun v.data →
      v.data.head? ≠ some '\'' → endsValue post.data →
      decodeURIComponent v.data = some name.data →
      resolveFilename env (pre ++ "filename*=UTF-8''" ++ v ++ post) = Except.ok name) ∧
    (∀ pre quote v post name : String,
      occursCI "filename=".data pre.data = false →
      ((quote = "" ∧ v.data.head? ≠ some '\'') ∨ quote = "\"") →
      isValueRun v.data → endsValue post.data →
      includes "filename*=".data (pre ++ "filename=" ++ quote ++ v ++ post).data = false →
      decodeURIComponent v.data = some name.data →
      resolveFilename env (pre ++ "filename=" ++ quote ++ v ++ post) = Except.ok name) ∧
    (∀ header : String, includes "filename*=".data header.data = false →
      occursCI "filename=".data header.data = false →
      resolveFilename env header = Except.ok "report.zip") := by
  refine ⟨?_, ?_, ?_⟩
  · intro pre v post name hpre hv hapos hpost hdec
    have hd : (pre ++ "filename*=UTF-8''" ++ v ++ post).data =
        pre.data ++ ("filename*=UTF-8''".data ++ (v.data ++ post.data)) := by
      simp [String.data_append, List.append_assoc]
    have hinc : includes "filename*=".data
        (pre.data ++ ("filename*=UTF-8''".data ++ (v.data ++ post.data))) = true := by
      have e : "filename*=UTF-8''".data ++ (v.data ++ post.data) =
          "filename*=".data ++ ("UTF-8''".data ++ (v.data ++ post.data)) := rfl
      rw [e]
      exact includes_append _ _ _
    unfold resolveFilename
    rw [hd, hinc, regexMatch_utf8Pattern pre.data v.data post.data hpre hv hapos hpost]
    simp [hdec]
  · intro pre quote v post name hpre hq hv hpost hinc hdec
    have hd : (pre ++ "filename=" ++ quote ++ v ++ post).data =
        pre.data ++ ("filename=".data ++ (quote.data ++ (v.data ++ post.data))) := by
      simp [String.data_append, List.append_assoc]
    have hq2 : (quote.data = [] ∧ v.data.head? ≠ some '\'') ∨ quote.data = ['"'] := by
      rcases hq with ⟨h1, h2⟩ | h1
      · exact Or.inl ⟨by rw [h1], h2⟩
      · exact Or.inr (by rw [h1])
    unfold resolveFilename
    rw [hinc, hd, regexMatch_filenamePattern pre.data quote.data v.data post.data hpre hv hq2
      hpost]
    simp [hdec]
  · intro header hinc hocc
    unfold resolveFilename
    rw [hinc, regexMatch_filenamePattern_none header.data hocc]
    simp [defaultFilename]

theorem resolveFilename_value_runs_witness :
    resolveFilename envShanghai
        ("attachment; " ++ "filename*=UTF-8''" ++ "%E6%8A%A5%E8%A1%A8.xlsx" ++ "") =
        Except.ok "报表.xlsx" ∧
      resolveFilename envShanghai
        ("attachment; " ++ "filename=" ++ "\"" ++ "report.xlsx" ++ "\"") =
        Except.ok "report.xlsx" ∧
      resolveFilename envShanghai "attachment; size=3" = Except.ok "report.zip" ∧
      resolveFilename envShanghai
        ("attachment; filename=\"plain.zip\"; " ++ "filename*=UTF-8''" ++ "extended.zip" ++
          "; size=3") = Except.ok "extended.zip" ∧
      resolveFilename envShanghai
        ("attachment; size=3; " ++ "filename=" ++ "" ++ "a.zip" ++ "") = Except.ok "a.zip" :=
  ⟨(resolveFilename_value_runs envShanghai).1 "attachment; " "%E6%8A%A5%E8%A1%A8.xlsx" "" "报表.xlsx"
      (by decide) ⟨by decide, by decide⟩ (by decide) (by intro c h; simp at h) (by decide),
    (resolveFilename_value_runs envShanghai).2.1 "attachment; " "\"" "report.xlsx" "\""
      "report.xlsx" (by decide) (Or.inr rfl) ⟨by decide, by decide⟩
      (by intro c h; simp at h; subst h; decide) (by decide) (by decide),
    (resolveFilename_value_runs envShanghai).2.2 "attachment; size=3" (by decide) (by decide),
    (resolveFilename_value_runs envShanghai).1 "attachment; filename=\"plain.zip\"; "
      "extended.zip" "; size=3" "extended.zip" (by decide) ⟨by decide, by decide⟩ (by decide)
      (by intro c h; simp at h; subst h; decide) (by decide),
    (resolveFilename_value_runs envShanghai).2.1 "attachment; size=3; " "" "a.zip" ""
      "a.zip" (by decide) (Or.inl ⟨rfl, by decide⟩) ⟨by decide, by decide⟩
      (by intro c h; simp at h) (by decide) (by decide)⟩

theorem advanceTo_idle (t : Nat) (st : SearchState) (h : st.timers = []) :
    advanceTo t st = { st with now := t } := by
  simp [advanceTo, dueTimers, h]

theorem advanceTo_armed (t : Nat) (st : SearchState) (h : Armed st) (ht : t < st.now + 300) :
    advanceTo t st = { st with now := t } := by
  obtain ⟨id, h1, _⟩ := h
  have hf : ¬ (st.now + 300 ≤ t) := by omega
  simp [advanceTo, dueTimers, h1, hf]

theorem onInput_idle (st : SearchState) (h : st.timers = []) :
    onInput st = { st with
      debounceTimer := some st.nextTimerId
      timers := [{ id := st.nextTimerId, due := st.now + 300 }]
      nextTimerId := st.nextTimerId + 1 } := by
  cases hd : st.debounceTimer <;> simp [onInput, clearTimeout, setTimeout, hd, h]

theorem onInput_single (st : SearchState) (id due : Nat)
    (h : st.timers = [{ id := id, due := due }]) (hd : st.debounceTimer = some id) :
    onInput st = { st with
      debounceTimer := some st.nextTimerId
      timers := [{ id := st.nextTimerId, due := st.now + 300 }]
      nextTimerId := st.nextTimerId + 1 } := by
  simp [onInput, clearTimeout, setTimeout, hd, h]

/-- What one `input` event leaves, from an idle state or from an armed
state that the event reaches in time: one timer, no new query. -/
theorem inputStep_armed (st : SearchState) (ev : InputEvent)
    (h : st.timers = [] ∨ (Armed st ∧ ev.gap < 300)) :
    Armed (inputStep st ev) ∧ (inputStep st ev).queries = st.queries ∧
      (inputStep st ev).now = st.now + ev.gap ∧
      ((inputStep st ev).searchCustomer, (inputStep st ev).searchDevice) =
        fieldsAfter (st.searchCustomer, st.searchDevice) [ev] := by
  have hadv : advanceTo (st.now + ev.gap) st = { st with now := st.now + ev.gap } := by
    rcases h with h | ⟨h, hg⟩
    · exact advanceTo_idle _ _ h
    · exact advanceTo_armed _ _ h (by omega)
  unfold inputStep
  rw [hadv]
  rcases h with h | ⟨⟨id, h1, h2⟩, hg⟩
  · rw [onInput_idle _ (by cases ev.field <;> simp [setField, h])]
    cases hfld : ev.field <;> simp [setField, Armed, fieldsAfter, hfld]
  · rw [onInput_single _ id (st.now + 300) (by cases ev.field <;> simp [setField, h1])
      (by cases ev.field <;> simp [setField, h2])]
    cases hfld : ev.field <;> simp [setField, Armed, fieldsAfter, hfld]

theorem fieldsAfter_cons (c d : String) (ev : InputEvent) (rest : List InputEvent) :
    fieldsAfter (c, d) (ev :: rest) = fieldsAfter (fieldsAfter (c, d) [ev]) rest := by
  cases hfld : ev.field <;> simp [fieldsAfter, hfld]

theorem timeAfter_cons (start : Nat) (ev : InputEvent) (rest : List InputEvent) :
    timeAfter start (ev :: rest) = timeAfter (start + ev.gap) rest := by
  simp [timeAfter]
  omega

/-- A burst of events keeps the page armed and issues no query. -/
theorem runInputs_armed (rest : List InputEvent) (st : SearchState) (h : Armed st)
    (hgap : ∀ ev ∈ rest, ev.gap < 300) :
    Armed (runInputs st rest) ∧ (runInputs st rest).queries = st.queries ∧
      (runInputs st rest).now = timeAfter st.now rest ∧
      ((runInputs st rest).searchCustomer, (runInputs st rest).searchDevice) =
        fieldsAfter (st.searchCustomer, st.searchDevice) rest := by
  induction rest generalizing st with
  | nil => simp [runInputs, h, timeAfter, fieldsAfter]
  | cons ev rest ih =>
    obtain ⟨s1, s2, s3, s4⟩ := inputStep_armed st ev (Or.inr ⟨h, hgap ev (by simp)⟩)
    obtain ⟨r1, r2, r3, r4⟩ := ih (inputStep st ev) s1 (fun e he => hgap e (by simp [he]))
    have hrun : runInputs st (ev :: rest) = runInputs (inputStep st ev) rest := by
      simp [runInputs]
    rw [hrun]
    refine ⟨r1, by rw [r2, s2], by rw [r3, s3, timeAfter_cons], ?_⟩
    rw [r4, fieldsAfter_cons st.searchCustomer st.searchDevice, ← s4]

theorem settle_armed (st : SearchState) (h : Armed st) :
    (settle st).queries = st.queries ++
        [{ time := st.now + 300, params := searchParams st.searchCustomer st.searchDevice }] ∧
      (settle st).timers = [] := by
  obtain ⟨id, h1, _⟩ := h
  simp [settle, lastDue, advanceTo, dueTimers, h1, fireTimer, fetchDevices]

/-- C10: from a state with nothing scheduled, a sequence of one or more
`input` events, each less than 300 ms after the one before, issues exactly
one directory query, 300 ms after the last event, with the parameters of
the field values at the last event (an empty field gives no parameter);
after every event at most one timer is scheduled, and none is left at the
end. -/
theorem debounce_issues_one_query (st : SearchState) (first : InputEvent)
    (rest : List InputEvent) (hidle : st.timers = []) (hgap : ∀ ev ∈ rest, ev.gap < 300) :
    (settle (runInputs st (first :: rest))).queries = st.queries ++
      [{ time := timeAfter st.now (first :: rest) + 300
         params :=
           (if (fieldsAfter (st.searchCustomer, st.searchDevice) (first :: rest)).1 = "" then []
            else [("customer_name",
              (fieldsAfter (st.searchCustomer, st.searchDevice) (first :: rest)).1)]) ++
           (if (fieldsAfter (st.searchCustomer, st.searchDevice) (first :: rest)).2 = "" then []
            else [("device_code",
              (fieldsAfter (st.searchCustomer, st.searchDevice) (first :: rest)).2)]) }] ∧
    (∀ k, (runInputs st ((first :: rest).take k)).timers.length ≤ 1) ∧
    (settle (runInputs st (first :: rest))).timers = [] := by
  obtain ⟨s1, s2, s3, s4⟩ := inputStep_armed st first (Or.inl hidle)
  have hrun : ∀ l, runInputs st (first :: l) = runInputs (inputStep st first) l := by
    intro l
    simp [runInputs]
  obtain ⟨r1, r2, r3, r4⟩ := runInputs_armed rest (inputStep st first) s1 hgap
  obtain ⟨q1, q2⟩ := settle_armed (runInputs (inputStep st first) rest) r1
  refine ⟨?_, ?_, ?_⟩
  · rw [hrun, q1, r2, s2, r3, s3, timeAfter_cons,
      fieldsAfter_cons st.searchCustomer st.searchDevice, ← s4, ← r4]
    rfl
  · intro k
    cases k with
    | zero => simp [runInputs, hidle]
    | succ k =>
      rw [List.take_succ_cons, hrun]
      obtain ⟨⟨id, t1, _⟩, _⟩ := runInputs_armed (rest.take k) (inputStep st first) s1
        (fun e he => hgap e (List.mem_of_mem_take he))
      simp [t1]
  · rw [hrun]
    exact q2

theorem debounce_issues_one_query_witness :
    (settle (runInputs idleState sampleTyping)).queries =
      [{ time := 0, params := [] },
        { time := 1710, params := [("customer_name", "ac"), ("device_code", "7")] }] ∧
    (∀ k, (runInputs idleState (sampleTyping.take k)).timers.length ≤ 1) ∧
    (settle (runInputs idleState sampleTyping)).timers = [] :=
  debounce_issues_one_query idleState { gap := 40, field := SearchField.customer, value := "a" }
    [ { gap := 120, field := SearchField.customer, value := "ac" },
      { gap := 250, field := SearchField.device, value := "7" } ] rfl (by decide)

end DailyReport
